import Mathlib

/-!
# Receipt processor: scoring engine and receipt store

A shallow embedding of `internal/receipt/receipt_repository.go` and
`internal/receipt/receipt_model.go`.

* Go `int` is a 64-bit two's-complement integer: every arithmetic result is
  reduced with `wrap64`.
* Go `float64` is IEEE-754 binary64, modelled exactly by its bit fields
  (`Float64`), with round-to-nearest-even multiplication, `math.Ceil`,
  `math.Mod`, the conversion `int(f)` and the `%f` verb.
* Go strings are modelled by Lean strings (sequences of Unicode scalar
  values, which is what the JSON decoder of the handler produces); `len` is the
  UTF-8 byte length.
* The key-value database is a finite map from keys to values; the outcomes of
  the identifier generator and of the two database writes of `CreateReceipt`
  are inputs of the model (`Env`).
-/

namespace ReceiptProcessor

/-! ## Machine integers -/

/-- Reduction of an integer to the range of Go's 64-bit `int`. -/
def wrap64 (x : Int) : Int := (x + 9223372036854775808) % 18446744073709551616 - 9223372036854775808

/-! ## float64 -/

/-- An IEEE-754 binary64 value, by its sign bit, biased exponent and fraction field. -/
structure Float64 where
  sign : Bool
  expo : Fin 2048
  frac : Fin 4503599627370496
deriving DecidableEq

namespace Float64

/-- Builds a value from its three fields (each reduced to its width). -/
def pack (neg : Bool) (expo frac : Nat) : Float64 := ⟨neg, Fin.ofNat expo, Fin.ofNat frac⟩

def isNaN (x : Float64) : Bool := x.expo.val == 2047 && x.frac.val != 0

def isInf (x : Float64) : Bool := x.expo.val == 2047 && x.frac.val == 0

def isFinite (x : Float64) : Bool := x.expo.val != 2047

/-- Tests `x == 0` (true for both signed zeros). -/
def isZero (x : Float64) : Bool := x.expo.val == 0 && x.frac.val == 0

/-- Integer significand of a finite value: its magnitude is `mant x * 2 ^ exp2 x`. -/
def mant (x : Float64) : Nat := if x.expo.val = 0 then x.frac.val else 4503599627370496 + x.frac.val

/-- Exponent of the unit in the last place of a finite value. -/
def exp2 (x : Float64) : Int := if x.expo.val = 0 then -1074 else (x.expo.val : Int) - 1075

def inf (neg : Bool) : Float64 := pack neg 2047 0

/-- A quiet NaN (the payload of a NaN is never observed by the program). -/
def nan : Float64 := pack false 2047 2251799813685248

def bitLenAux : Nat → Nat → Nat
  | 0, _ => 0
  | fuel + 1, n => if n = 0 then 0 else bitLenAux fuel (n / 2) + 1

/-- Number of binary digits of `n`. -/
def bitLen (n : Nat) : Nat := bitLenAux n n

/-- The significand of `m * 2 ^ e` at quantum `2 ^ q`, rounded to nearest, ties to even. -/
def roundSig (m : Nat) (e q : Int) : Nat :=
  if q ≤ e then m * 2 ^ (e - q).toNat
  else
    let s := (q - e).toNat
    let m0 := m / 2 ^ s
    let rest := m % 2 ^ s
    let half := 2 ^ (s - 1)
    if half < rest ∨ (rest = half ∧ m0 % 2 = 1) then m0 + 1 else m0

/-- The binary64 value nearest to `(-1)^neg * m * 2 ^ e` (round to nearest, ties to even,
overflow to infinity, gradual underflow). -/
def roundNE (neg : Bool) (m : Nat) (e : Int) : Float64 :=
  if m = 0 then pack neg 0 0
  else
    let q : Int := max (e + (bitLen m : Int) - 53) (-1074)
    let sig := roundSig m e q
    let q' : Int := if sig = 9007199254740992 then q + 1 else q
    let sig' : Nat := if sig = 9007199254740992 then 4503599627370496 else sig
    if sig' < 4503599627370496 then pack neg 0 sig'
    else if 2047 ≤ q' + 1075 then inf neg
    else pack neg (q' + 1075).toNat (sig' - 4503599627370496)

/-- The product `x * y` of the machine. -/
def mul (x y : Float64) : Float64 :=
  if x.isNaN || y.isNaN then nan
  else if x.isInf || y.isInf then
    if x.isZero || y.isZero then nan else inf (xor x.sign y.sign)
  else roundNE (xor x.sign y.sign) (x.mant * y.mant) (x.exp2 + y.exp2)

/-- Model of `math.Ceil`: the least integral value not below `x`; zeros, infinities and NaN
are returned unchanged. -/
def Ceil (x : Float64) : Float64 :=
  if x.isZero || x.isNaN || x.isInf then x
  else if 0 ≤ x.exp2 then x
  else
    let d := 2 ^ (-x.exp2).toNat
    if x.sign then roundNE true (x.mant / d) 0
    else roundNE false ((x.mant + d - 1) / d) 0

/-- Model of `math.Mod`: the remainder of `x / y`, with the sign of `x`, computed exactly. -/
def Mod (x y : Float64) : Float64 :=
  if y.isZero || x.isInf || x.isNaN || y.isNaN then nan
  else if y.isInf then x
  else
    let e := min x.exp2 y.exp2
    let a := x.mant * 2 ^ (x.exp2 - e).toNat
    let b := y.mant * 2 ^ (y.exp2 - e).toNat
    roundNE x.sign (a % b) e

/-- The integer part of a finite value (truncation toward zero). -/
def trunc (x : Float64) : Int :=
  let n : Nat := if 0 ≤ x.exp2 then x.mant * 2 ^ x.exp2.toNat else x.mant / 2 ^ (-x.exp2).toNat
  if x.sign then -(n : Int) else (n : Int)

/-- Model of the conversion `int(x)`. When the truncated value is not representable in an
`int` (or `x` is not finite) the language leaves the result to the implementation: it is
given by `conv`. -/
def toInt (conv : Float64 → Int) (x : Float64) : Int :=
  if x.isFinite ∧ -9223372036854775808 ≤ x.trunc ∧ x.trunc < 9223372036854775808 then x.trunc
  else wrap64 (conv x)

/-- The constant `.2` of the source: the binary64 value nearest to 1/5. -/
def point2 : Float64 := pack false 1020 2702159776422298

/-- The constant `1.0`. -/
def one : Float64 := pack false 1023 0

/-- The constant `.25`. -/
def quarter : Float64 := pack false 1021 0

/-- The constant `0`. -/
def zero : Float64 := pack false 0 0

/-- The comparison `x == y` of the machine: NaN equals nothing, the two zeros are equal. -/
def feq (x y : Float64) : Bool :=
  !x.isNaN && !y.isNaN && ((x.isZero && y.isZero) || decide (x = y))

/-! ### The `%f` verb -/

def digitChar (d : Nat) : Char := Char.ofNat (48 + d)

def natDigitsAux : Nat → Nat → List Char → List Char
  | 0, _, acc => acc
  | fuel + 1, n, acc =>
    if n < 10 then digitChar n :: acc else natDigitsAux fuel (n / 10) (digitChar (n % 10) :: acc)

/-- Decimal digits of a natural number, most significant first. -/
def natDigits (n : Nat) : List Char := natDigitsAux (n + 1) n []

/-- The value `mant x * 2 ^ exp2 x * 10 ^ 6` rounded to an integer, ties to even. -/
def scaledMicro (x : Float64) : Nat :=
  if 0 ≤ x.exp2 then x.mant * 2 ^ x.exp2.toNat * 1000000
  else
    let d := 2 ^ (-x.exp2).toNat
    let q := x.mant * 1000000 / d
    let r := x.mant * 1000000 % d
    if d < 2 * r ∨ (2 * r = d ∧ q % 2 = 1) then q + 1 else q

/-- Model of `fmt.Sprintf("%f", x)`: six decimals, correctly rounded. -/
def fmtF (x : Float64) : String :=
  if x.isNaN then "NaN"
  else if x.isInf then (if x.sign then "-Inf" else "+Inf")
  else
    let n := scaledMicro x
    String.mk ((if x.sign then ['-'] else []) ++ natDigits (n / 1000000) ++ ['.']
      ++ (natDigits (1000000 + n % 1000000)).drop 1)

end Float64

open Float64

/-! ## Runtime and library tables -/

/-- What the program takes from its runtime beyond the parts modelled here: the Unicode
tables of package `unicode` outside Latin-1, and the implementation-dependent result of
converting an out-of-range `float64` to `int`. -/
structure Runtime where
  letterBeyondLatin1 : Char → Bool
  digitBeyondLatin1 : Char → Bool
  convOverflow : Float64 → Int

/-- The letters of Latin-1 (`pLmask` in the `properties` table of package `unicode`). -/
def latin1Letter (n : Nat) : Bool :=
  (65 ≤ n && n ≤ 90) || (97 ≤ n && n ≤ 122) || n == 170 || n == 181 || n == 186
    || (192 ≤ n && n ≤ 214) || (216 ≤ n && n ≤ 246) || (248 ≤ n && n ≤ 255)

/-- Model of `unicode.IsLetter`. -/
def IsLetter (R : Runtime) (r : Char) : Bool :=
  if r.toNat ≤ 255 then latin1Letter r.toNat else R.letterBeyondLatin1 r

/-- Model of `unicode.IsDigit`. -/
def IsDigit (R : Runtime) (r : Char) : Bool :=
  if r.toNat ≤ 255 then (48 ≤ r.toNat && r.toNat ≤ 57) else R.digitBeyondLatin1 r

/-- Model of `unicode.IsSpace` (the `White_Space` property). -/
def IsSpace (r : Char) : Bool :=
  let n := r.toNat
  if n ≤ 255 then (9 ≤ n && n ≤ 13) || n == 32 || n == 133 || n == 160
  else n == 5760 || (8192 ≤ n && n ≤ 8202) || n == 8232 || n == 8233 || n == 8239
    || n == 8287 || n == 12288

/-- Model of `strings.TrimSpace`. -/
def TrimSpace (s : String) : String :=
  String.mk ((s.data.dropWhile IsSpace).reverse.dropWhile IsSpace).reverse

/-- Number of bytes of the UTF-8 encoding of a character. -/
def utf8Size (c : Char) : Nat :=
  if c.toNat < 128 then 1 else if c.toNat < 2048 then 2 else if c.toNat < 65536 then 3 else 4

/-- Go's `len` on a string: the number of bytes. -/
def len (s : String) : Nat := (s.data.map utf8Size).sum

/-! ## Package `time`, for the layout `"2006-01-02 15:04"` -/

/-- The fields of a `time.Time` in UTC that the program reads. -/
structure Time where
  year : Nat
  month : Nat
  day : Nat
  hour : Nat
  minute : Nat
deriving DecidableEq

namespace Time

/-- The zero value `Time{}`: January 1, year 1, 00:00 UTC. -/
def zero : Time := ⟨1, 1, 1, 0, 0⟩

def Day (t : Time) : Int := t.day

def Hour (t : Time) : Int := t.hour

def Minute (t : Time) : Int := t.minute

def isDigit (s : List Char) (i : Nat) : Bool :=
  match s.get? i with
  | some c => 48 ≤ c.toNat && c.toNat ≤ 57
  | none => false

def digitVal (s : List Char) (i : Nat) : Nat :=
  match s.get? i with
  | some c => c.toNat - 48
  | none => 0

/-- Model of `getnum`: one or two leading digits (exactly two when `fixed`). -/
def getnum (s : List Char) (fixed : Bool) : Option (Nat × List Char) :=
  if !isDigit s 0 then none
  else if !isDigit s 1 then (if fixed then none else some (digitVal s 0, s.drop 1))
  else some (digitVal s 0 * 10 + digitVal s 1, s.drop 2)

/-- Model of `atoi` on the four bytes of the year, the first of which is a digit. -/
def atoi4 (p : List Char) : Option Nat :=
  if isDigit p 0 && isDigit p 1 && isDigit p 2 && isDigit p 3 then
    some (digitVal p 0 * 1000 + digitVal p 1 * 100 + digitVal p 2 * 10 + digitVal p 3)
  else none

/-- Model of `skip` for a one-character piece of the layout: a space matches any run of
spaces (also none at the end of the value), another character matches itself. -/
def skip (value : List Char) (c : Char) : Option (List Char) :=
  if c = ' ' then
    match value with
    | [] => some []
    | v :: vs => if v ≠ ' ' then none else some ((v :: vs).dropWhile (fun x => x == ' '))
  else
    match value with
    | [] => none
    | v :: vs => if v = c then some vs else none

def isLeap (year : Nat) : Bool := year % 4 == 0 && (year % 100 != 0 || year % 400 == 0)

def daysIn (month year : Nat) : Nat :=
  if month = 2 then (if isLeap year then 29 else 28)
  else if month = 4 ∨ month = 6 ∨ month = 9 ∨ month = 11 then 30 else 31

/-- The successful runs of `time.Parse("2006-01-02 15:04", value)`. -/
def parse (value : List Char) : Option Time :=
  if value.length < 4 || !isDigit value 0 then none else
  match atoi4 (value.take 4) with
  | none => none
  | some year =>
  match skip (value.drop 4) '-' with
  | none => none
  | some value =>
  match getnum value true with
  | none => none
  | some (month, value) =>
  if month = 0 ∨ 12 < month then none else
  match skip value '-' with
  | none => none
  | some value =>
  match getnum value true with
  | none => none
  | some (day, value) =>
  match skip value ' ' with
  | none => none
  | some value =>
  match getnum value false with
  | none => none
  | some (hour, value) =>
  if 24 ≤ hour then none else
  match skip value ':' with
  | none => none
  | some value =>
  match getnum value true with
  | none => none
  | some (min, value) =>
  if 60 ≤ min then none else
  if value ≠ [] then none else
  if day < 1 ∨ daysIn month year < day then none else
  some ⟨year, month, day, hour, min⟩

/-- Model of `time.Parse("2006-01-02 15:04", value)`: the time and whether the error is
`nil`. Every failure returns the zero `Time`. -/
def Parse (value : String) : Time × Bool :=
  match parse value.data with
  | some t => (t, true)
  | none => (zero, false)

end Time

/-! ## Data model (`receipt_model.go`) -/

structure ReceiptItem where
  ShortDescription : String
  Price : Float64
deriving DecidableEq

structure Receipt where
  Id : String
  Retailer : String
  PurchaseDate : String
  PurchaseTime : String
  Items : List ReceiptItem
  Points : Int
  Total : Float64
deriving DecidableEq

/-! ## Scoring (`pointGenerator`) -/

def isPurchaseAfterTwoBeforeFour (time : Time) : Bool :=
  (time.Hour > 14 || (time.Hour == 14 && time.Minute > 1)) && time.Hour < 16

def pointGenerator (R : Runtime) (receipt : Receipt) : Int :=
  let points : Int := 0
  let retailer := receipt.Retailer
  let items := receipt.Items
  let total := receipt.Total
  let receiptPurchaseDateTime :=
    (Time.Parse (receipt.PurchaseDate ++ " " ++ receipt.PurchaseTime)).1
  let points := retailer.data.foldl
    (fun points chars => if IsDigit R chars || IsLetter R chars then wrap64 (points + 1) else points)
    points
  let points := items.foldl
    (fun points item =>
      if len (TrimSpace item.ShortDescription) % 3 = 0 then
        wrap64 (points + toInt R.convOverflow (Ceil (mul item.Price point2)))
      else points)
    points
  let points := if feq (Mod total one) zero then wrap64 (points + 50) else points
  let points := if feq (Mod total quarter) zero then wrap64 (points + 25) else points
  let points := wrap64 (points + wrap64 (wrap64 ((items.length : Int) / 2) * 5))
  let points := if receiptPurchaseDateTime.Day % 2 ≠ 0 then wrap64 (points + 6) else points
  let points := if isPurchaseAfterTwoBeforeFour receiptPurchaseDateTime then wrap64 (points + 10)
    else points
  points

/-! ## Identifiers (`uuid.UUID`) -/

/-- A `uuid.UUID`: sixteen bytes, held as one number (byte 0 most significant). -/
structure UUID where
  val : Fin 340282366920938463463374607431768211456
deriving DecidableEq

namespace UUID

/-- The zero value of `uuid.UUID`. -/
def zero : UUID := ⟨0⟩

def byte (u : UUID) (i : Nat) : Nat := u.val.val / 256 ^ (15 - i) % 256

def hexDigit (n : Nat) : Char := if n < 10 then Char.ofNat (48 + n) else Char.ofNat (87 + n)

def hexByte (b : Nat) : List Char := [hexDigit (b / 16), hexDigit (b % 16)]

def hexBytes (u : UUID) (is : List Nat) : List Char := is.flatMap (fun i => hexByte (u.byte i))

/-- Model of `UUID.String`: `xxxxxxxx-xxxx-xxxx-xxxx-xxxxxxxxxxxx`, lower-case hexadecimal. -/
def String (u : UUID) : String :=
  String.mk (hexBytes u [0, 1, 2, 3] ++ ['-'] ++ hexBytes u [4, 5] ++ ['-'] ++ hexBytes u [6, 7]
    ++ ['-'] ++ hexBytes u [8, 9] ++ ['-'] ++ hexBytes u [10, 11, 12, 13, 14, 15])

end UUID

/-! ## The database and the environment -/

/-- The errors the repository returns. -/
inductive Error where
  /-- Value `errors.New("duplicate receipt")`. -/
  | duplicateReceipt
  /-- Value `errors.New("could not create UUID for receipt")`. -/
  | couldNotCreateUUID
  /-- Value `buntdb.ErrNotFound`. -/
  | notFound
  /-- A `json.UnsupportedValueError` of `json.Marshal`. -/
  | unsupportedValue
  /-- An error of `json.Unmarshal` on a text that is not a JSON receipt. -/
  | invalidJSON
  /-- The error of a `db.Update` that did not commit. -/
  | writeFailed
deriving DecidableEq

/-- A value held by the database: the JSON text `json.Marshal` made of a receipt, or the
text of an identifier. -/
inductive Value where
  | record (receipt : Receipt)
  | ident (id : UUID)
deriving DecidableEq

/-- The contents of the database. -/
abbrev Store := String → Option Value

/-- The empty database. -/
def Store.empty : Store := fun _ => none

/-- Effect of a committed `tx.Set(key, value, nil)`. -/
def Store.set (db : Store) (key : String) (value : Value) : Store :=
  fun k => if k = key then some value else db k

/-- Model of `json.Marshal` on a receipt: it fails exactly when a `float64` field is an
infinity or a NaN. -/
def Marshal (receipt : Receipt) : Except Error Value :=
  if receipt.Total.isFinite && receipt.Items.all (fun item => item.Price.isFinite) then
    .ok (.record receipt)
  else .error .unsupportedValue

/-- Model of `json.Unmarshal` into a `Receipt`: the text of a marshalled receipt decodes to
that receipt; the text of an identifier is not JSON. -/
def Unmarshal (stringValue : Value) : Except Error Receipt :=
  match stringValue with
  | .record receipt => .ok receipt
  | .ident _ => .error .invalidJSON

/-- Result of one call of `uuid.NewUUID()`: the identifier returned and whether the error
is `nil`. The source tests the error, so the model keeps both outcomes; in the library the
error comes from `getTime`, which returns `nil` on every path. -/
structure NewUUIDResult where
  id : UUID
  ok : Bool

/-- Outcomes of the environment during one call of `CreateReceipt`: the successive results of
`uuid.NewUUID()`, and whether each of the two `db.Update` transactions commits. -/
structure Env where
  NewUUID : Nat → NewUUIDResult
  recordWrite : Bool
  keyWrite : Bool

/-! ## The repository (`receipt_repository.go`) -/

/-- The duplicate-detection key of the source:
`fmt.Sprintf("%s+%s+%s+%f", strings.TrimSpace(Retailer), PurchaseDate, PurchaseTime, Total)`. -/
def uniqueKey (receipt : Receipt) : String :=
  TrimSpace receipt.Retailer ++ "+" ++ receipt.PurchaseDate ++ "+" ++ receipt.PurchaseTime
    ++ "+" ++ fmtF receipt.Total

/-- The key of the record of an identifier. -/
def recordKey (id : String) : String := "receipt:" ++ id

/-- The identifier loop of `CreateReceipt`, from iteration `i` with `n` iterations left. The
state is `receiptID` and whether `err` is `nil`. -/
def uuidLoop (env : Env) (db : Store) : Nat → Nat → UUID × Bool → UUID × Bool
  | _, 0, st => st
  | i, n + 1, _ =>
    let g := env.NewUUID i
    if !g.ok then uuidLoop env db (i + 1) n (g.id, false)
    else
      match db (recordKey g.id.String) with
      | none => (g.id, false)
      | some _ => uuidLoop env db (i + 1) n (g.id, true)

/-- Model of `CreateReceipt`: the database after the call, the identifier and the error
returned. -/
def CreateReceipt (R : Runtime) (env : Env) (db : Store) (receipt : Receipt) :
    Store × String × Option Error :=
  let uuidMaxCollisions := 3
  let receipt := { receipt with Points := pointGenerator R receipt }
  let uniqueKey := uniqueKey receipt
  match db uniqueKey with
  | some _ => (db, "", some .duplicateReceipt)
  | none =>
    let (receiptID, errNil) := uuidLoop env db 0 uuidMaxCollisions (UUID.zero, true)
    if errNil then (db, "", some .couldNotCreateUUID)
    else
      let receipt := { receipt with Id := receiptID.String }
      match Marshal receipt with
      | .error err => (db, "", some err)
      | .ok receiptMarshal =>
        if env.recordWrite then
          let db := db.set (recordKey receiptID.String) receiptMarshal
          if env.keyWrite then
            (db.set uniqueKey (.ident receiptID), receiptID.String, none)
          else (db, receiptID.String, some .writeFailed)
        else (db, "", some .writeFailed)

/-- Model of `GetPointsByID`: the points and the error returned. -/
def GetPointsByID (db : Store) (id : String) : Int × Option Error :=
  match db (recordKey id) with
  | none => (0, some .notFound)
  | some stringValue =>
    match Unmarshal stringValue with
    | .ok receipt => (receipt.Points, none)
    | .error err => (0, some err)

/-! ## The rules of the score, one by one

Each definition is the amount one step of `pointGenerator` adds to `points`, before the
reduction to 64 bits. `pointGenerator_eq_sum` shows that the score is their sum, reduced. -/

/-- The time `pointGenerator` reads the day, hour and minute from. -/
def purchaseDateTime (receipt : Receipt) : Time :=
  (Time.Parse (receipt.PurchaseDate ++ " " ++ receipt.PurchaseTime)).1

/-- Rule 1: one point per character of the retailer that `unicode` calls a digit or a letter. -/
def retailerPoints (R : Runtime) (retailer : String) : Int :=
  (retailer.data.countP (fun chars => IsDigit R chars || IsLetter R chars) : Nat)

/-- Whether the loop over the items counts an item. -/
def descriptionCounts (item : ReceiptItem) : Bool :=
  len (TrimSpace item.ShortDescription) % 3 == 0

/-- The amount added for one counted item: `int(math.Ceil(item.Price * .2))`. -/
def priceBonus (R : Runtime) (item : ReceiptItem) : Int :=
  toInt R.convOverflow (Ceil (mul item.Price point2))

/-- Rule 5: the loop over the items. -/
def descriptionPoints (R : Runtime) (items : List ReceiptItem) : Int :=
  ((items.filter descriptionCounts).map (priceBonus R)).sum

/-- Rule 2: the test `math.Mod(total, 1.0) == 0`. -/
def roundDollarPoints (total : Float64) : Int := if feq (Mod total one) zero then 50 else 0

/-- Rule 3: the test `math.Mod(total, .25) == 0`. -/
def quarterPoints (total : Float64) : Int := if feq (Mod total quarter) zero then 25 else 0

/-- Rule 4: `(len(items) / 2) * 5`. -/
def pairPoints (items : List ReceiptItem) : Int := (items.length : Int) / 2 * 5

/-- Rule 6: the test `Day()%2 != 0`. -/
def oddDayPoints (time : Time) : Int := if time.Day % 2 ≠ 0 then 6 else 0

/-- Rule 7: the test `isPurchaseAfterTwoBeforeFour`. -/
def afternoonPoints (time : Time) : Int := if isPurchaseAfterTwoBeforeFour time then 10 else 0

/-! ## Exact values and the wording of the specification -/

/-- The exact value of a finite `float64` (0 for infinities and NaN). -/
def Float64.toRat (x : Float64) : ℚ :=
  if x.isFinite then (if x.sign then -1 else 1) * (x.mant : ℚ) * (2 : ℚ) ^ x.exp2 else 0

/-- The magnitude of a finite value, as a rational number. -/
def Float64.absRat (x : Float64) : ℚ := (x.mant : ℚ) * (2 : ℚ) ^ x.exp2

/-- The value has zero fractional part (the wording of the specification for rule 2). -/
def isWhole (x : Float64) : Prop := x.isFinite = true ∧ ∃ k : ℤ, x.toRat = k

/-- The value is an exact multiple of 0.25 (the wording of the specification for rule 3). -/
def isQuarterMultiple (x : Float64) : Prop := x.isFinite = true ∧ ∃ k : ℤ, x.toRat = k * (1 / 4)

/-- The ASCII letters and digits: `A`-`Z`, `a`-`z`, `0`-`9` (the wording of the
specification for rule 1). -/
def asciiAlnum (c : Char) : Bool :=
  (65 ≤ c.toNat && c.toNat ≤ 90) || (97 ≤ c.toNat && c.toNat ≤ 122)
    || (48 ≤ c.toNat && c.toNat ≤ 57)

/-- Model of `strconv.ParseFloat` on the decimal literal `digits / 10 ^ scale`: the nearest
`float64`, ties to even (the quotient is taken with 64 extra bits and a sticky bit). -/
def Float64.ofDecimal (digits scale : Nat) : Float64 :=
  let k := 64 + 4 * scale
  let q := digits * 2 ^ k / 10 ^ scale
  let sticky := if digits * 2 ^ k % 10 ^ scale = 0 then 0 else 1
  roundNE false (2 * q + sticky) (-(k : Int) - 1)

/-! ## Sequences of calls -/

/-- The receipt as `CreateReceipt` stores it under identifier `id`. -/
def storedReceipt (R : Runtime) (receipt : Receipt) (id : UUID) : Receipt :=
  { receipt with Points := pointGenerator R receipt, Id := id.String }

/-- The database after a sequence of calls of `CreateReceipt`, each with its environment. -/
def runCreates (R : Runtime) : Store → List (Env × Receipt) → Store
  | db, [] => db
  | db, c :: cs => runCreates R (CreateReceipt R c.1 db c.2).1 cs

/-- The receipts of the calls of a sequence that returned without error, in order. -/
def acceptedReceipts (R : Runtime) : Store → List (Env × Receipt) → List Receipt
  | _, [] => []
  | db, c :: cs =>
    (if (CreateReceipt R c.1 db c.2).2.2 = none then [c.2] else [])
      ++ acceptedReceipts R (CreateReceipt R c.1 db c.2).1 cs

/-- The identifiers returned by the calls of a sequence (with or without an error). -/
def returnedIds (R : Runtime) : Store → List (Env × Receipt) → List String
  | _, [] => []
  | db, c :: cs => (CreateReceipt R c.1 db c.2).2.1 :: returnedIds R (CreateReceipt R c.1 db c.2).1 cs

/-- The entries of the database under keys that contain a `+` are exactly the
duplicate-detection keys of the receipts of `acc`. -/
def KeysAre (db : Store) (acc : List Receipt) : Prop :=
  ∀ k : String, '+' ∈ k.data → ((db k).isSome ↔ ∃ r ∈ acc, uniqueKey r = k)

/-! ## Texts of dates, times and identifiers; the invariant of the database -/

/-- Model of the unary minus on `float64`. -/
def Float64.neg (x : Float64) : Float64 := ⟨!x.sign, x.expo, x.frac⟩

/-- The two decimal digits of a number below 100. -/
def twoDigits (n : Nat) : List Char := [digitChar (n / 10), digitChar (n % 10)]

/-- The text `YYYY-MM-DD` of a date. -/
def dateText (year month day : Nat) : String :=
  String.mk ([digitChar (year / 1000), digitChar (year / 100 % 10), digitChar (year / 10 % 10),
    digitChar (year % 10)] ++ ['-'] ++ twoDigits month ++ ['-'] ++ twoDigits day)

/-- The text `HH:MM` of a time of day. -/
def timeText (hour minute : Nat) : String :=
  String.mk (twoDigits hour ++ [':'] ++ twoDigits minute)

/-- A character of the textual form of an identifier: a hexadecimal digit (`0`-`9`, `a`-`f`,
`A`-`F`) or a hyphen. -/
def isHexOrHyphen (c : Char) : Bool :=
  (48 ≤ c.toNat && c.toNat ≤ 57) || (97 ≤ c.toNat && c.toNat ≤ 102)
    || (65 ≤ c.toNat && c.toNat ≤ 70) || c.toNat == 45

/-- Every entry of the database is either an identifier text under a key that contains a
`+`, whose identifier has a record with that identifier as `Id`, or a record under a key
without `+`. -/
def KeysPointToRecords (db : Store) : Prop :=
  ∀ (k : String) (v : Value), db k = some v →
    match v with
    | .ident u => '+' ∈ k.data
        ∧ ∃ receipt, db (recordKey u.String) = some (.record receipt) ∧ receipt.Id = u.String
    | .record _ => '+' ∉ k.data

/-! ## Calls of the two operations -/

/-- A call of the repository: `CreateReceipt` of a receipt, with the environment of the call,
or `GetPointsByID` of an identifier. -/
inductive Call where
  | create (env : Env) (receipt : Receipt)
  | getPoints (id : String)

/-- The database after a sequence of calls of the two operations. `GetPointsByID` reads in a
`db.View` transaction and writes nothing. -/
def runCalls (R : Runtime) : Store → List Call → Store
  | db, [] => db
  | db, .create env receipt :: cs => runCalls R (CreateReceipt R env db receipt).1 cs
  | db, .getPoints _ :: cs => runCalls R db cs

/-- The third attempt of `uuid.NewUUID()`, the last one the loop of `CreateReceipt` can make,
returns no error. A generator that never returns an error satisfies it in every call. -/
def Env.thirdAttemptOk (env : Env) : Bool := (env.NewUUID 2).ok

/-- The condition `Env.thirdAttemptOk` on the environment of a call of `CreateReceipt`;
a call of `GetPointsByID` generates no identifier. -/
def Call.thirdAttemptOk : Call → Bool
  | .create env _ => env.thirdAttemptOk
  | .getPoints _ => true

/-- A runtime for the concrete scenarios: the conversion of an out-of-range `float64` gives
the smallest `int`, as on amd64; the tables beyond Latin-1 are left empty (no scenario reads
them). -/
def sampleRuntime : Runtime := ⟨fun _ => false, fun _ => false, fun _ => -9223372036854775808⟩

/-- An environment in which `uuid.NewUUID()` returns the identifier of value `n` and both
writes commit. -/
def sampleEnv (n : Nat) : Env := ⟨fun _ => ⟨⟨Fin.ofNat n⟩, true⟩, true, true⟩

/-- The receipt of the reference scenario of the specification. -/
def targetReceipt : Receipt :=
  { Id := "", Retailer := "Target", PurchaseDate := "2022-01-01", PurchaseTime := "13:01",
    Items := [⟨"Mountain Dew 12PK", ofDecimal 649 2⟩,
              ⟨"Emils Cheese Pizza", ofDecimal 1225 2⟩,
              ⟨"Knorr Creamy Chicken", ofDecimal 126 2⟩,
              ⟨"Doritos Nacho Cheese", ofDecimal 335 2⟩,
              ⟨"   Klarbrunn 12-PK 12 FL OZ  ", ofDecimal 1200 2⟩],
    Points := 0, Total := ofDecimal 3535 2 }

/-- The reference receipt with another purchase time. -/
def receiptAt (purchaseTime : String) : Receipt :=
  { targetReceipt with PurchaseTime := purchaseTime }

/-- The reference receipt with another total. -/
def receiptOfTotal (total : Float64) : Receipt := { targetReceipt with Total := total }

/-- The reference receipt with a purchase date that is not in the layout. -/
def malformedReceipt : Receipt := { targetReceipt with PurchaseDate := "01/02/2022" }

/-- A receipt without items, bought on an even day in the morning, for a given retailer. -/
def retailerReceipt (retailer : String) : Receipt :=
  { Id := "", Retailer := retailer, PurchaseDate := "2022-01-02", PurchaseTime := "09:30",
    Items := [], Points := 0, Total := ofDecimal 101 2 }

/-- The reference receipt with a single item, of price 100000000000000000000. -/
def hugePriceReceipt : Receipt :=
  { targetReceipt with Items := [⟨"abc", ofDecimal 100000000000000000000 0⟩] }

/-- A second receipt, with another duplicate-detection key and another score. -/
def walmartReceipt : Receipt :=
  { Id := "", Retailer := "Walmart", PurchaseDate := "2022-01-02", PurchaseTime := "15:00",
    Items := [], Points := 0, Total := ofDecimal 1000 2 }

/-- A receipt whose retailer starts with the text that begins every record key. -/
def keyLikeReceipt : Receipt :=
  { Id := "", Retailer := "receipt:A", PurchaseDate := "2022-01-01", PurchaseTime := "13:01",
    Items := [], Points := 0, Total := ofDecimal 100 2 }

/-- A receipt of total 35.3500001 (it differs from `receiptB` in the seventh decimal only). -/
def receiptA : Receipt :=
  { Id := "", Retailer := "Target", PurchaseDate := "2022-01-01", PurchaseTime := "13:01",
    Items := [], Points := 0, Total := ofDecimal 353500001 7 }

/-- The receipt `receiptA` with the total 35.3500002 in place of 35.3500001. -/
def receiptB : Receipt := { receiptA with Total := ofDecimal 353500002 7 }

/-- An environment whose generator returns the identifiers of values 1, 2, 3, ... in turn, and
in which both writes commit. -/
def countingEnv : Env := ⟨fun i => ⟨⟨Fin.ofNat (i + 1)⟩, true⟩, true, true⟩

/-- The database after three receipts were created under the identifiers of values 1, 2, 3. -/
def threeRecords : Store :=
  runCreates sampleRuntime Store.empty
    [(sampleEnv 1, targetReceipt), (sampleEnv 2, walmartReceipt), (sampleEnv 3, keyLikeReceipt)]

/-- Six further calls: a new receipt, a read, a duplicate, a call whose three identifiers
collide, another new receipt, and a read. -/
def laterCalls : List Call :=
  [.create (sampleEnv 2) walmartReceipt, .getPoints "00000000-0000-0000-0000-000000000001",
   .create countingEnv targetReceipt, .create (sampleEnv 1) keyLikeReceipt,
   .create countingEnv keyLikeReceipt, .getPoints "00000000-0000-0000-0000-000000000002"]

/-- The reference receipt with three items of price 20000000000000000000 each. -/
def bigItemsReceipt : Receipt :=
  { targetReceipt with
    Items := [⟨"abc", ofDecimal 20000000000000000000 0⟩, ⟨"def", ofDecimal 20000000000000000000 0⟩,
              ⟨"ghi", ofDecimal 20000000000000000000 0⟩] }

/-- A receipt of retailer "A" with one item, of price -10.00. -/
def negativePriceReceipt : Receipt :=
  { retailerReceipt "A" with Items := [⟨"abc", (ofDecimal 1000 2).neg⟩] }

/-! ## Machine integers: lemmas -/

theorem wrap64_add_left (a b : Int) : wrap64 (wrap64 a + b) = wrap64 (a + b) := by
  unfold wrap64; omega

theorem wrap64_add_right (a b : Int) : wrap64 (a + wrap64 b) = wrap64 (a + b) := by
  unfold wrap64; omega

theorem wrap64_idem (a : Int) : wrap64 (wrap64 a) = wrap64 a := by
  unfold wrap64; omega

theorem wrap64_of_range (a : Int) (h1 : -9223372036854775808 ≤ a) (h2 : a < 9223372036854775808) :
    wrap64 a = a := by
  unfold wrap64; omega

theorem wrap64_range (a : Int) :
    -9223372036854775808 ≤ wrap64 a ∧ wrap64 a < 9223372036854775808 := by
  unfold wrap64; omega

theorem wrap64_mul5 (a : Int) : wrap64 (wrap64 a * 5) = wrap64 (a * 5) := by
  unfold wrap64; omega

/-! ## The score is the sum of its rules -/

theorem retailer_loop (R : Runtime) (l : List Char) (points : Int) :
    wrap64 (l.foldl
      (fun points chars => if IsDigit R chars || IsLetter R chars then wrap64 (points + 1) else points)
      points)
      = wrap64 (points + (l.countP (fun chars => IsDigit R chars || IsLetter R chars) : Nat)) := by
  induction l generalizing points with
  | nil => simp
  | cons c cs ih =>
    rw [List.foldl_cons, ih]
    by_cases hc : (IsDigit R c || IsLetter R c) = true
    · rw [if_pos hc, wrap64_add_left]
      simp only [List.countP_cons, hc, if_true]
      push_cast; ring_nf
    · rw [if_neg hc]
      simp only [List.countP_cons, hc]
      simp

theorem items_loop (R : Runtime) (l : List ReceiptItem) (points : Int) :
    wrap64 (l.foldl
      (fun points item =>
        if len (TrimSpace item.ShortDescription) % 3 = 0 then
          wrap64 (points + toInt R.convOverflow (Ceil (mul item.Price point2)))
        else points)
      points)
      = wrap64 (points + descriptionPoints R l) := by
  induction l generalizing points with
  | nil => simp [descriptionPoints]
  | cons c cs ih =>
    rw [List.foldl_cons, ih]
    by_cases hc : len (TrimSpace c.ShortDescription) % 3 = 0
    · have hd : descriptionCounts c = true := by simp [descriptionCounts, hc]
      rw [if_pos hc, wrap64_add_left]
      simp only [descriptionPoints, List.filter_cons_of_pos hd, List.map_cons, List.sum_cons,
        priceBonus]
      ring_nf
    · have hd : ¬ descriptionCounts c = true := by simp [descriptionCounts, hc]
      rw [if_neg hc]
      simp only [descriptionPoints, List.filter_cons_of_neg hd]

theorem score_steps (p2 c d n : Int) (b1 b2 b3 b4 : Prop) [Decidable b1] [Decidable b2]
    [Decidable b3] [Decidable b4] (h : wrap64 p2 = wrap64 (c + d)) :
    (let points := if b1 then wrap64 (p2 + 50) else p2
     let points := if b2 then wrap64 (points + 25) else points
     let points := wrap64 (points + wrap64 (wrap64 n * 5))
     let points := if b3 then wrap64 (points + 6) else points
     let points := if b4 then wrap64 (points + 10) else points
     points)
      = wrap64 (c + d + (if b1 then 50 else 0) + (if b2 then 25 else 0) + n * 5
          + (if b3 then 6 else 0) + (if b4 then 10 else 0)) := by
  simp only [wrap64] at *
  split_ifs <;> omega

theorem pointGenerator_eq_sum (R : Runtime) (receipt : Receipt) :
    pointGenerator R receipt
      = wrap64 (retailerPoints R receipt.Retailer + descriptionPoints R receipt.Items
          + roundDollarPoints receipt.Total + quarterPoints receipt.Total
          + pairPoints receipt.Items + oddDayPoints (purchaseDateTime receipt)
          + afternoonPoints (purchaseDateTime receipt)) := by
  have h1 := retailer_loop R receipt.Retailer.data 0
  have h2 := items_loop R receipt.Items
    (receipt.Retailer.data.foldl
      (fun points chars => if IsDigit R chars || IsLetter R chars then wrap64 (points + 1) else points)
      0)
  rw [← wrap64_add_left, h1, wrap64_add_left, zero_add] at h2
  exact score_steps _ _ _ _ _ _ _ _ h2

/-! ## C1: the reference scenario -/

set_option maxRecDepth 1000000 in
/-- C1: the score of the reference receipt (retailer "Target", 2022-01-01 13:01, total 35.35,
five items) is exactly 28 on every runtime: 6 for the retailer characters, 10 for the two
pairs of items, 3 + 3 for the two descriptions whose trimmed length is a multiple of 3 (the
other three items are not counted), 6 for the odd day, nothing for the total and nothing for
the afternoon. -/
theorem target_receipt_score (R : Runtime) :
    pointGenerator R targetReceipt = 28
      ∧ retailerPoints R targetReceipt.Retailer = 6
      ∧ pairPoints targetReceipt.Items = 10
      ∧ targetReceipt.Items.map descriptionCounts = [false, true, false, false, true]
      ∧ (targetReceipt.Items.filter descriptionCounts).map (priceBonus R) = [3, 3]
      ∧ descriptionPoints R targetReceipt.Items = 3 + 3
      ∧ oddDayPoints (purchaseDateTime targetReceipt) = 6
      ∧ roundDollarPoints targetReceipt.Total = 0
      ∧ quarterPoints targetReceipt.Total = 0
      ∧ afternoonPoints (purchaseDateTime targetReceipt) = 0
      ∧ (28 : Int) = 6 + 10 + 3 + 3 + 6 := by
  refine ⟨by rfl, by rfl, by rfl, by rfl, by rfl, by rfl, by rfl, by rfl, by rfl, by rfl, by rfl⟩

/-! ## `CreateReceipt`, case by case -/

theorem uniqueKey_congr (r1 r2 : Receipt) (hret : TrimSpace r1.Retailer = TrimSpace r2.Retailer)
    (hd : r1.PurchaseDate = r2.PurchaseDate) (ht : r1.PurchaseTime = r2.PurchaseTime)
    (htot : r1.Total = r2.Total) : uniqueKey r1 = uniqueKey r2 := by
  simp only [uniqueKey, hret, hd, ht, htot]

theorem marshal_stored (R : Runtime) (receipt : Receipt) (id : UUID) :
    Marshal (storedReceipt R receipt id)
      = if receipt.Total.isFinite && receipt.Items.all (fun item => item.Price.isFinite) then
          .ok (.record (storedReceipt R receipt id))
        else .error .unsupportedValue := rfl

/-- The result of `CreateReceipt` in each of its six cases. -/
theorem createReceipt_eq (R : Runtime) (env : Env) (db : Store) (receipt : Receipt) :
    CreateReceipt R env db receipt =
      if (db (uniqueKey receipt)).isSome then (db, "", some .duplicateReceipt)
      else if (uuidLoop env db 0 3 (UUID.zero, true)).2 then (db, "", some .couldNotCreateUUID)
      else if ¬ (receipt.Total.isFinite && receipt.Items.all (fun item => item.Price.isFinite))
        then (db, "", some .unsupportedValue)
      else if ¬ env.recordWrite then (db, "", some .writeFailed)
      else if ¬ env.keyWrite then
        (db.set (recordKey (uuidLoop env db 0 3 (UUID.zero, true)).1.String)
            (.record (storedReceipt R receipt (uuidLoop env db 0 3 (UUID.zero, true)).1)),
          (uuidLoop env db 0 3 (UUID.zero, true)).1.String, some .writeFailed)
      else
        ((db.set (recordKey (uuidLoop env db 0 3 (UUID.zero, true)).1.String)
            (.record (storedReceipt R receipt (uuidLoop env db 0 3 (UUID.zero, true)).1))).set
            (uniqueKey receipt) (.ident (uuidLoop env db 0 3 (UUID.zero, true)).1),
          (uuidLoop env db 0 3 (UUID.zero, true)).1.String, none) := by
  unfold CreateReceipt
  have hk : uniqueKey { receipt with Points := pointGenerator R receipt } = uniqueKey receipt := rfl
  simp only [hk]
  cases hdb : db (uniqueKey receipt) with
  | some v => simp
  | none =>
    simp only [Option.isSome_none, Bool.false_eq_true, if_false]
    rcases hl : uuidLoop env db 0 3 (UUID.zero, true) with ⟨u, b⟩
    cases b with
    | true => simp
    | false =>
      simp only [Bool.false_eq_true, if_false]
      have hm := marshal_stored R receipt u
      simp only [storedReceipt] at hm
      rw [hm]
      by_cases hf : (receipt.Total.isFinite && receipt.Items.all (fun item => item.Price.isFinite)) = true
      · rw [if_pos hf]
        cases env.recordWrite <;> cases env.keyWrite <;> simp [hf, storedReceipt]
      · rw [if_neg hf]
        simp [hf]

theorem createReceipt_ok_key (R : Runtime) (env : Env) (db : Store) (receipt : Receipt)
    (hok : (CreateReceipt R env db receipt).2.2 = none) :
    ∃ u, (CreateReceipt R env db receipt).1 (uniqueKey receipt) = some (.ident u) := by
  rw [createReceipt_eq] at hok ⊢
  split_ifs at hok ⊢ <;> simp at hok
  exact ⟨(uuidLoop env db 0 3 (UUID.zero, true)).1, by simp [Store.set]⟩

theorem createReceipt_dup (R : Runtime) (env : Env) (db : Store) (receipt : Receipt)
    (h : (db (uniqueKey receipt)).isSome) :
    CreateReceipt R env db receipt = (db, "", some .duplicateReceipt) := by
  rw [createReceipt_eq, if_pos h]

/-! ## C2: a second receipt with the same key is a duplicate -/

/-- C2: in every database, if `CreateReceipt` of `r1` returns without error, then
`CreateReceipt` of any `r2` with the same trimmed retailer, purchase date, purchase time and
total (items, id and points arbitrary) on the resulting database fails with the
duplicate-receipt error, whatever the environment does. -/
theorem duplicate_after_success (R : Runtime) (env1 env2 : Env) (db : Store) (r1 r2 : Receipt)
    (hret : TrimSpace r1.Retailer = TrimSpace r2.Retailer)
    (hd : r1.PurchaseDate = r2.PurchaseDate) (ht : r1.PurchaseTime = r2.PurchaseTime)
    (htot : r1.Total = r2.Total) (hok : (CreateReceipt R env1 db r1).2.2 = none) :
    (CreateReceipt R env2 (CreateReceipt R env1 db r1).1 r2).2.2 = some .duplicateReceipt := by
  obtain ⟨u, hu⟩ := createReceipt_ok_key R env1 db r1 hok
  rw [uniqueKey_congr r1 r2 hret hd ht htot] at hu
  rw [createReceipt_dup R env2 _ r2 (by rw [hu]; rfl)]

set_option maxRecDepth 1000000 in
/-- Witness of C2: the reference receipt, then the same purchase with the retailer padded with
spaces and no items, on the empty database. -/
theorem duplicate_after_success_witness :
    (CreateReceipt sampleRuntime (sampleEnv 1) Store.empty targetReceipt).2.2 = none
      ∧ (CreateReceipt sampleRuntime (sampleEnv 2)
          (CreateReceipt sampleRuntime (sampleEnv 1) Store.empty targetReceipt).1
          { targetReceipt with Retailer := "  Target ", Items := [], Id := "x", Points := 7 }).2.2
        = some .duplicateReceipt :=
  ⟨by rfl, duplicate_after_success sampleRuntime (sampleEnv 1) (sampleEnv 2) Store.empty
    targetReceipt { targetReceipt with Retailer := "  Target ", Items := [], Id := "x", Points := 7 }
    (by rfl) (by rfl) (by rfl) (by rfl) (by rfl)⟩

/-! ## Keys of the two kinds never coincide -/

theorem hexDigit_ne_plus : ∀ n, n < 16 → UUID.hexDigit n ≠ '+' := by decide

theorem hexByte_no_plus (b : Nat) (hb : b < 256) : '+' ∉ UUID.hexByte b := by
  have h1 := hexDigit_ne_plus (b / 16) (by omega)
  have h2 := hexDigit_ne_plus (b % 16) (by omega)
  simp only [UUID.hexByte, List.mem_cons, List.mem_singleton, List.not_mem_nil, or_false, not_or]
  exact ⟨fun h => h1 h.symm, fun h => h2 h.symm⟩

theorem hexBytes_no_plus (u : UUID) (is : List Nat) : '+' ∉ UUID.hexBytes u is := by
  simp only [UUID.hexBytes, List.mem_flatMap, not_exists, not_and]
  intro i _
  exact hexByte_no_plus _ (Nat.mod_lt _ (by norm_num))

theorem uuid_string_no_plus (u : UUID) : '+' ∉ u.String.data := by
  have h := hexBytes_no_plus u
  simp only [UUID.String, List.mem_append, List.mem_singleton, not_or]
  refine ⟨⟨⟨⟨⟨⟨⟨⟨h _, by decide⟩, h _⟩, by decide⟩, h _⟩, by decide⟩, h _⟩, by decide⟩, h _⟩

theorem recordKey_no_plus (u : UUID) : '+' ∉ (recordKey u.String).data := by
  have h := uuid_string_no_plus u
  simp only [recordKey, String.data_append, List.mem_append, not_or]
  exact ⟨by decide, h⟩

theorem uniqueKey_has_plus (receipt : Receipt) : '+' ∈ (uniqueKey receipt).data := by
  simp only [uniqueKey, String.data_append, List.mem_append]
  exact Or.inl (Or.inr (by decide))

theorem uniqueKey_ne_recordKey (receipt : Receipt) (u : UUID) :
    uniqueKey receipt ≠ recordKey u.String := by
  intro h
  exact recordKey_no_plus u (h ▸ uniqueKey_has_plus receipt)

/-! ## C4: which receipts are rejected as duplicates -/

theorem keysAre_set_record (db : Store) (acc : List Receipt) (u : UUID) (v : Value)
    (h : KeysAre db acc) : KeysAre (db.set (recordKey u.String) v) acc := by
  intro k hk
  have hne : k ≠ recordKey u.String := by
    intro e; exact recordKey_no_plus _ (e ▸ hk)
  simp only [Store.set, if_neg hne]
  exact h k hk

theorem keysAre_set_key (db : Store) (acc : List Receipt) (receipt : Receipt) (v : Value)
    (h : KeysAre db acc) : KeysAre (db.set (uniqueKey receipt) v) (acc ++ [receipt]) := by
  intro k hk
  by_cases hkey : k = uniqueKey receipt
  · subst hkey
    simp only [Store.set, if_true, Option.isSome_some, true_iff]
    exact ⟨receipt, by simp, rfl⟩
  · simp only [Store.set, if_neg hkey, List.mem_append, List.mem_singleton]
    rw [h k hk]
    constructor
    · rintro ⟨r, hr, e⟩
      exact ⟨r, Or.inl hr, e⟩
    · rintro ⟨r, hr | hr, e⟩
      · exact ⟨r, hr, e⟩
      · subst hr
        exact absurd e.symm hkey

theorem keysAre_step (R : Runtime) (env : Env) (db : Store) (receipt : Receipt)
    (acc : List Receipt) (h : KeysAre db acc) :
    KeysAre (CreateReceipt R env db receipt).1
      (acc ++ if (CreateReceipt R env db receipt).2.2 = none then [receipt] else []) := by
  rw [createReceipt_eq]
  by_cases h1 : (db (uniqueKey receipt)).isSome = true
  · simpa [h1] using h
  by_cases h2 : (uuidLoop env db 0 3 (UUID.zero, true)).2 = true
  · simpa [h1, h2] using h
  by_cases h3 : (receipt.Total.isFinite && receipt.Items.all (fun item => item.Price.isFinite)) = true
  swap
  · simp only [if_neg h1, if_neg h2, h3, not_false_eq_true, if_true, reduceCtorEq, if_false,
      List.append_nil]
    exact h
  by_cases h4 : env.recordWrite = true
  swap
  · simp only [if_neg h1, if_neg h2, h3, not_true_eq_false, h4, not_false_eq_true, if_true,
      reduceCtorEq, if_false, List.append_nil]
    exact h
  by_cases h5 : env.keyWrite = true
  · simp only [if_neg h1, if_neg h2, h3, h4, h5, not_true_eq_false, if_false, if_true]
    exact keysAre_set_key _ _ _ _ (keysAre_set_record _ _ _ _ h)
  · simp only [if_neg h1, if_neg h2, h3, h4, h5, not_true_eq_false, not_false_eq_true, if_false,
      if_true, reduceCtorEq, List.append_nil]
    exact keysAre_set_record _ _ _ _ h

theorem keysAre_run (R : Runtime) (calls : List (Env × Receipt)) :
    ∀ (db : Store) (acc : List Receipt), KeysAre db acc →
      KeysAre (runCreates R db calls) (acc ++ acceptedReceipts R db calls) := by
  induction calls with
  | nil => intro db acc h; simpa [runCreates, acceptedReceipts] using h
  | cons c cs ih =>
    intro db acc h
    have hs := keysAre_step R c.1 db c.2 acc h
    have := ih _ _ hs
    simpa [runCreates, acceptedReceipts, List.append_assoc] using this

theorem keysAre_empty : KeysAre Store.empty [] := by
  intro k _
  simp [Store.empty]

theorem createReceipt_dup_iff (R : Runtime) (env : Env) (db : Store) (receipt : Receipt) :
    (CreateReceipt R env db receipt).2.2 = some .duplicateReceipt
      ↔ (db (uniqueKey receipt)).isSome := by
  rw [createReceipt_eq]
  split_ifs <;> simp_all

set_option maxRecDepth 1000000 in
/-- C4, counterexample: two receipts that differ in their total (35.3500001 and 35.3500002,
distinct `float64` values) have the same duplicate-detection key, so after the first is
accepted on the empty database the second is rejected as a duplicate although no stored
receipt has its tuple. -/
theorem duplicate_with_different_total :
    receiptA.Total ≠ receiptB.Total
      ∧ (CreateReceipt sampleRuntime (sampleEnv 1) Store.empty receiptA).2.2 = none
      ∧ acceptedReceipts sampleRuntime Store.empty [(sampleEnv 1, receiptA)] = [receiptA]
      ∧ (CreateReceipt sampleRuntime (sampleEnv 2)
          (runCreates sampleRuntime Store.empty [(sampleEnv 1, receiptA)]) receiptB).2.2
        = some .duplicateReceipt := by
  refine ⟨by decide!, by rfl, by rfl, by rfl⟩

/-- C4, amended: in every database reached from the empty one by calls of `CreateReceipt`,
`CreateReceipt` of `r` is rejected as a duplicate if and only if an earlier call that returned
without error had a receipt with the same duplicate-detection key text
`<trimmed retailer>+<purchaseDate>+<purchaseTime>+<total with six decimals>`; receipts with the
same (trimmed retailer, purchaseDate, purchaseTime, total) tuple always have the same key. -/
theorem duplicate_iff_same_key (R : Runtime) (calls : List (Env × Receipt)) (env : Env)
    (r : Receipt) :
    ((CreateReceipt R env (runCreates R Store.empty calls) r).2.2 = some .duplicateReceipt
        ↔ ∃ r' ∈ acceptedReceipts R Store.empty calls, uniqueKey r' = uniqueKey r)
      ∧ (∀ r' : Receipt, TrimSpace r'.Retailer = TrimSpace r.Retailer →
          r'.PurchaseDate = r.PurchaseDate → r'.PurchaseTime = r.PurchaseTime →
          r'.Total = r.Total → uniqueKey r' = uniqueKey r) := by
  refine ⟨?_, fun r' h1 h2 h3 h4 => uniqueKey_congr r' r h1 h2 h3 h4⟩
  rw [createReceipt_dup_iff]
  have h := keysAre_run R calls Store.empty [] keysAre_empty
  simpa using h (uniqueKey r) (uniqueKey_has_plus r)

/-! ## C5: `GetPointsByID` of an identifier that was never returned -/

set_option maxRecDepth 1000000 in
/-- C5, on the failing input: after `CreateReceipt` of a receipt whose retailer is
"receipt:A" on the empty database (identifier returned:
"00000000-0000-0000-0000-000000000001"), `GetPointsByID` of the text
"A+2022-01-01+13:01+1.000000", which no call returned, finds the duplicate-detection entry
under the record key and fails with the decoding error, not with the not-found error. -/
theorem getPoints_of_key_text :
    (CreateReceipt sampleRuntime (sampleEnv 1) Store.empty keyLikeReceipt).2
        = ("00000000-0000-0000-0000-000000000001", none)
      ∧ uniqueKey keyLikeReceipt = recordKey "A+2022-01-01+13:01+1.000000"
      ∧ "A+2022-01-01+13:01+1.000000"
          ∉ returnedIds sampleRuntime Store.empty [(sampleEnv 1, keyLikeReceipt)]
      ∧ GetPointsByID (runCreates sampleRuntime Store.empty [(sampleEnv 1, keyLikeReceipt)])
          "A+2022-01-01+13:01+1.000000" = (0, some .invalidJSON) := by
  refine ⟨by rfl, by rfl, ?_, by rfl⟩
  have h : returnedIds sampleRuntime Store.empty [(sampleEnv 1, keyLikeReceipt)]
      = ["00000000-0000-0000-0000-000000000001"] := by rfl
  rw [h]
  decide

/-! ## C6: a purchase date or time that does not parse -/

set_option maxRecDepth 1000000 in
/-- C6, counterexample: for the reference receipt with purchase date "01/02/2022" the parse
fails, yet the odd-day rule contributes 6: the score is 28, while rules 1 to 5 alone give
22. -/
theorem malformed_date_scores_odd_day :
    (Time.Parse (malformedReceipt.PurchaseDate ++ " " ++ malformedReceipt.PurchaseTime)).2 = false
      ∧ oddDayPoints (purchaseDateTime malformedReceipt) = 6
      ∧ pointGenerator sampleRuntime malformedReceipt = 28
      ∧ wrap64 (retailerPoints sampleRuntime malformedReceipt.Retailer
          + descriptionPoints sampleRuntime malformedReceipt.Items
          + roundDollarPoints malformedReceipt.Total + quarterPoints malformedReceipt.Total
          + pairPoints malformedReceipt.Items) = 22 := by
  refine ⟨by rfl, by rfl, by rfl, by rfl⟩

/-- C6, amended: for every receipt whose purchase date and time do not parse in the layout
"2006-01-02 15:04", `pointGenerator` still returns a score; the time it reads is the zero
time (day 1, 00:00), so the odd-day rule contributes 6 and the afternoon rule contributes 0:
the score is the sum of rules 1 to 5 plus 6. -/
theorem malformed_date_time_score (R : Runtime) (receipt : Receipt)
    (hbad : (Time.Parse (receipt.PurchaseDate ++ " " ++ receipt.PurchaseTime)).2 = false) :
    purchaseDateTime receipt = Time.zero
      ∧ oddDayPoints (purchaseDateTime receipt) = 6
      ∧ afternoonPoints (purchaseDateTime receipt) = 0
      ∧ pointGenerator R receipt
          = wrap64 (retailerPoints R receipt.Retailer + descriptionPoints R receipt.Items
              + roundDollarPoints receipt.Total + quarterPoints receipt.Total
              + pairPoints receipt.Items + 6) := by
  have hz : purchaseDateTime receipt = Time.zero := by
    unfold purchaseDateTime
    unfold Time.Parse at hbad ⊢
    cases hp : Time.parse (receipt.PurchaseDate ++ " " ++ receipt.PurchaseTime).data with
    | none => rfl
    | some t => rw [hp] at hbad; simp at hbad
  have h6 : oddDayPoints Time.zero = 6 := by decide
  have h7 : afternoonPoints Time.zero = 0 := by decide
  refine ⟨hz, by rw [hz, h6], by rw [hz, h7], ?_⟩
  rw [pointGenerator_eq_sum, hz, h6, h7, add_zero]

set_option maxRecDepth 1000000 in
/-- Witness of C6 (amended): the reference receipt with purchase date "01/02/2022". -/
theorem malformed_date_time_score_witness :
    (Time.Parse (malformedReceipt.PurchaseDate ++ " " ++ malformedReceipt.PurchaseTime)).2 = false
      ∧ pointGenerator sampleRuntime malformedReceipt
          = wrap64 (retailerPoints sampleRuntime malformedReceipt.Retailer
              + descriptionPoints sampleRuntime malformedReceipt.Items
              + roundDollarPoints malformedReceipt.Total + quarterPoints malformedReceipt.Total
              + pairPoints malformedReceipt.Items + 6) :=
  ⟨by rfl, (malformed_date_time_score sampleRuntime malformedReceipt (by rfl)).2.2.2⟩

/-! ## C7: the afternoon window -/

/-- C7: for a time of day `h:m` (`h` in 0..23, `m` in 0..59), `isPurchaseAfterTwoBeforeFour`
holds if and only if (`h > 14` or (`h = 14` and `m > 1`)) and `h < 16`, that is exactly from
14:02 to 15:59; the score of a receipt bought at that time contains 10 for it in that case
and 0 otherwise. -/
theorem afternoon_window (h m : Nat) (hh : h < 24) (hm : m < 60) :
    (∀ time : Time, time.hour = h → time.minute = m →
        (isPurchaseAfterTwoBeforeFour time = true ↔ (h > 14 ∨ (h = 14 ∧ m > 1)) ∧ h < 16))
      ∧ ((h > 14 ∨ (h = 14 ∧ m > 1)) ∧ h < 16
        ↔ 14 * 60 + 2 ≤ h * 60 + m ∧ h * 60 + m ≤ 15 * 60 + 59)
      ∧ (∀ (R : Runtime) (receipt : Receipt), (purchaseDateTime receipt).hour = h →
          (purchaseDateTime receipt).minute = m →
          pointGenerator R receipt
            = wrap64 (retailerPoints R receipt.Retailer + descriptionPoints R receipt.Items
                + roundDollarPoints receipt.Total + quarterPoints receipt.Total
                + pairPoints receipt.Items + oddDayPoints (purchaseDateTime receipt)
                + if (h > 14 ∨ (h = 14 ∧ m > 1)) ∧ h < 16 then 10 else 0)) := by
  have h1 : ∀ time : Time, time.hour = h → time.minute = m →
      (isPurchaseAfterTwoBeforeFour time = true ↔ (h > 14 ∨ (h = 14 ∧ m > 1)) ∧ h < 16) := by
    intro time hhour hmin
    simp only [isPurchaseAfterTwoBeforeFour, Time.Hour, Time.Minute, hhour, hmin,
      Bool.and_eq_true, Bool.or_eq_true, decide_eq_true_eq, beq_iff_eq]
    omega
  refine ⟨h1, by omega, ?_⟩
  intro R receipt hhour hmin
  rw [pointGenerator_eq_sum]
  congr 2
  unfold afternoonPoints
  by_cases hc : (h > 14 ∨ (h = 14 ∧ m > 1)) ∧ h < 16
  · rw [if_pos hc, if_pos ((h1 _ hhour hmin).mpr hc)]
  · rw [if_neg hc, if_neg (fun hb => hc ((h1 _ hhour hmin).mp hb))]

set_option maxRecDepth 1000000 in
/-- Witness of C7: the boundary times 14:01 (no bonus), 14:02 (bonus) and 16:00 (no bonus) on
the reference receipt. -/
theorem afternoon_window_witness :
    (isPurchaseAfterTwoBeforeFour (purchaseDateTime (receiptAt "14:01")) = false
        ∧ pointGenerator sampleRuntime (receiptAt "14:01") = 28)
      ∧ (isPurchaseAfterTwoBeforeFour (purchaseDateTime (receiptAt "14:02")) = true
        ∧ pointGenerator sampleRuntime (receiptAt "14:02") = 38)
      ∧ (isPurchaseAfterTwoBeforeFour (purchaseDateTime (receiptAt "16:00")) = false
        ∧ pointGenerator sampleRuntime (receiptAt "16:00") = 28)
      ∧ (isPurchaseAfterTwoBeforeFour (purchaseDateTime (receiptAt "14:02")) = true
        ↔ (14 > 14 ∨ (14 = 14 ∧ 2 > 1)) ∧ 14 < 16) :=
  ⟨⟨by rfl, by rfl⟩, ⟨by rfl, by rfl⟩, ⟨by rfl, by rfl⟩,
    (afternoon_window 14 2 (by decide) (by decide)).1 (purchaseDateTime (receiptAt "14:02"))
      (by rfl) (by rfl)⟩

/-! ## C8: the characters of the retailer that count -/

set_option maxRecDepth 1000000 in
/-- C8, counterexample: the retailer "Café" has three ASCII letters or digits, but the
retailer rule contributes 4 on every runtime, since `unicode.IsLetter` holds of "é"; the score
of a receipt of "Café" is one more than that of the same receipt of "Caf". -/
theorem accented_letter_counts :
    "Café".data.countP asciiAlnum = 3
      ∧ (¬ ∃ R : Runtime, retailerPoints R "Café" ≠ 4)
      ∧ pointGenerator sampleRuntime (retailerReceipt "Caf") = 3
      ∧ pointGenerator sampleRuntime (retailerReceipt "Café") = 4 := by
  refine ⟨by rfl, ?_, by rfl, by rfl⟩
  rintro ⟨R, hR⟩
  exact hR (by rfl)

theorem ascii_digit_or_letter : ∀ n, n < 128 →
    ((48 ≤ n && n ≤ 57) || latin1Letter n)
      = ((65 ≤ n && n ≤ 90) || (97 ≤ n && n ≤ 122) || (48 ≤ n && n ≤ 57)) := by
  decide

/-- C8, amended: for every retailer, the retailer rule contributes to the score exactly the
number of characters of the retailer that package `unicode` classifies as a decimal digit or
as a letter. Among ASCII characters these are exactly `A`-`Z`, `a`-`z` and `0`-`9`, so ASCII
punctuation, spaces and symbols contribute 0; letters outside ASCII count as well. -/
theorem retailer_rule (R : Runtime) (receipt : Receipt) :
    pointGenerator R receipt
        = wrap64 ((receipt.Retailer.data.countP (fun c => IsDigit R c || IsLetter R c) : Nat)
            + descriptionPoints R receipt.Items
            + roundDollarPoints receipt.Total + quarterPoints receipt.Total
            + pairPoints receipt.Items + oddDayPoints (purchaseDateTime receipt)
            + afternoonPoints (purchaseDateTime receipt))
      ∧ (∀ c : Char, c.toNat < 128 → (IsDigit R c || IsLetter R c) = asciiAlnum c)
      ∧ ((∀ c ∈ receipt.Retailer.data, c.toNat < 128) →
          retailerPoints R receipt.Retailer = (receipt.Retailer.data.countP asciiAlnum : Nat)) := by
  have hascii : ∀ c : Char, c.toNat < 128 → (IsDigit R c || IsLetter R c) = asciiAlnum c := by
    intro c hc
    have h255 : c.toNat ≤ 255 := by omega
    simp only [IsDigit, IsLetter, if_pos h255, asciiAlnum]
    exact ascii_digit_or_letter c.toNat hc
  refine ⟨pointGenerator_eq_sum R receipt, hascii, ?_⟩
  intro hall
  unfold retailerPoints
  congr 1
  apply List.countP_congr
  intro c hc
  rw [hascii c (hall c hc)]

/-! ## float64: lemmas -/

namespace Float64

theorem pack_sign (s : Bool) (e f : Nat) : (pack s e f).sign = s := rfl

theorem pack_expo (s : Bool) (e f : Nat) : (pack s e f).expo.val = e % 2048 := rfl

theorem pack_frac (s : Bool) (e f : Nat) : (pack s e f).frac.val = f % 4503599627370496 := rfl

theorem bitLenAux_spec : ∀ fuel n : Nat, n ≤ fuel →
    n < 2 ^ bitLenAux fuel n ∧ (n ≠ 0 → 2 ^ (bitLenAux fuel n - 1) ≤ n) := by
  intro fuel
  induction fuel with
  | zero =>
    intro n hn
    have : n = 0 := by omega
    subst this
    simp [bitLenAux]
  | succ f ih =>
    intro n hn
    by_cases h0 : n = 0
    · subst h0; simp [bitLenAux]
    · have hle : n / 2 ≤ f := by omega
      obtain ⟨h1, h2⟩ := ih (n / 2) hle
      simp only [bitLenAux, if_neg h0, Nat.add_sub_cancel]
      refine ⟨?_, fun _ => ?_⟩
      · rw [pow_succ]; omega
      · by_cases h3 : n / 2 = 0
        · have hb : bitLenAux f (n / 2) = 0 := by
            rw [h3]; cases f <;> simp [bitLenAux]
          rw [hb]; simp; omega
        · have h4 := h2 h3
          have hpos : 1 ≤ bitLenAux f (n / 2) := by
            by_contra hcon
            have : bitLenAux f (n / 2) = 0 := by omega
            rw [this] at h1
            simp at h1
            exact h3 h1
          have : 2 ^ bitLenAux f (n / 2) = 2 * 2 ^ (bitLenAux f (n / 2) - 1) := by
            rw [← pow_succ']; congr 1; omega
          rw [this]; omega

theorem bitLen_lt (n : Nat) : n < 2 ^ bitLen n := (bitLenAux_spec n n le_rfl).1

theorem bitLen_le (n : Nat) (h : n ≠ 0) : 2 ^ (bitLen n - 1) ≤ n := (bitLenAux_spec n n le_rfl).2 h

theorem bitLen_pos (n : Nat) (h : n ≠ 0) : 1 ≤ bitLen n := by
  by_contra hc
  have h0 : bitLen n = 0 := by omega
  have := bitLen_lt n
  rw [h0] at this
  omega

end Float64
namespace Float64


theorem roundNE_isNaN (neg : Bool) (m : Nat) (e : Int) : (roundNE neg m e).isNaN = false := by
  simp only [roundNE]
  split_ifs <;> simp [isNaN, pack_expo, pack_frac, inf] <;> omega

theorem roundNE_sign (neg : Bool) (m : Nat) (e : Int) : (roundNE neg m e).sign = neg := by
  simp only [roundNE]
  split_ifs <;> simp [pack_sign, inf]

theorem roundSig_pos (m : Nat) (e : Int) (hm : m ≠ 0) (he : -1074 ≤ e) :
    1 ≤ roundSig m e (max (e + (bitLen m : Int) - 53) (-1074)) := by
  unfold roundSig
  by_cases h1 : max (e + (bitLen m : Int) - 53) (-1074) ≤ e
  · rw [if_pos h1]
    exact Nat.one_le_iff_ne_zero.mpr (Nat.mul_ne_zero hm (by positivity))
  · rw [if_neg h1]
    have hs : (max (e + (bitLen m : Int) - 53) (-1074) - e).toNat = bitLen m - 53 := by omega
    have hb : 54 ≤ bitLen m := by omega
    simp only [hs]
    have h3 := bitLen_le m hm
    have h4 : 2 ^ (bitLen m - 1) = 2 ^ (bitLen m - 53) * 2 ^ 52 := by
      rw [← pow_add]; congr 1; omega
    rw [h4] at h3
    have h5 : 2 ^ 52 ≤ m / 2 ^ (bitLen m - 53) := by
      rw [Nat.le_div_iff_mul_le (by positivity)]
      rw [mul_comm]; exact h3
    have h6 : 1 ≤ m / 2 ^ (bitLen m - 53) := le_trans (by norm_num) h5
    split_ifs
    · exact Nat.le_add_left _ _
    · exact h6

theorem roundNE_isZero (neg : Bool) (m : Nat) (e : Int) (he : -1074 ≤ e) :
    (roundNE neg m e).isZero = true ↔ m = 0 := by
  constructor
  · intro h
    by_contra hm
    have hpos := roundSig_pos m e hm he
    simp only [roundNE, if_neg hm] at h
    split_ifs at h with h1 h2 h3 h4 h5 <;>
      simp [isZero, pack_expo, pack_frac, inf] at h <;> omega
  · intro h
    subst h
    simp [roundNE, isZero, pack_expo, pack_frac]

end Float64
namespace Float64

theorem exp2_ge (x : Float64) : -1074 ≤ x.exp2 := by
  unfold exp2
  split_ifs <;> omega

theorem feq_zero (r : Float64) (h : r.isNaN = false) : feq r zero = r.isZero := by
  have hz : zero.isNaN = false := rfl
  have hz' : zero.isZero = true := rfl
  unfold feq
  rw [h, hz, hz']
  by_cases hr : r.isZero = true
  · simp [hr]
  · have hne : r ≠ zero := by
      intro e; rw [e] at hr; exact hr hz'
    simp [hr, hne]

theorem feq_nan_zero : feq nan zero = false := rfl

theorem isFinite_iff (x : Float64) : x.isFinite = true ↔ x.isInf = false ∧ x.isNaN = false := by
  unfold isFinite isInf isNaN
  by_cases h : x.expo.val = 2047 <;> by_cases h2 : x.frac.val = 0 <;> simp [h, h2]

/-- When `math.Mod(x, y) == 0` holds, for a finite non-zero `y`. -/
theorem mod_feq_zero (x y : Float64) (hy : y.isFinite = true) (hy0 : y.isZero = false) :
    feq (Mod x y) zero = true ↔
      x.isFinite = true ∧
        (x.mant * 2 ^ (x.exp2 - min x.exp2 y.exp2).toNat)
          % (y.mant * 2 ^ (y.exp2 - min x.exp2 y.exp2).toNat) = 0 := by
  obtain ⟨hyi, hyn⟩ := (isFinite_iff y).mp hy
  unfold Mod
  by_cases hx : x.isFinite = true
  · obtain ⟨hxi, hxn⟩ := (isFinite_iff x).mp hx
    simp only [hy0, hxi, hxn, hyn, hyi, Bool.or_self, Bool.false_eq_true, if_false, hx, true_and]
    rw [feq_zero _ (roundNE_isNaN _ _ _)]
    exact roundNE_isZero _ _ _ (le_min (exp2_ge x) (exp2_ge y))
  · have hx' : (x.isInf || x.isNaN) = true := by
      by_contra hc
      apply hx
      rw [isFinite_iff]
      simpa using hc
    have hc : (y.isZero || x.isInf || x.isNaN || y.isNaN) = true := by
      rw [hy0, hyn, Bool.false_or, Bool.or_false]; exact hx'
    rw [if_pos hc, feq_nan_zero]
    simp [hx]

theorem scale_cast (m : Nat) (i e : Int) (h : e ≤ i) :
    ((m * 2 ^ (i - e).toNat : Nat) : ℚ) * (2 : ℚ) ^ e = (m : ℚ) * (2 : ℚ) ^ i := by
  push_cast
  rw [mul_assoc, ← zpow_natCast, Int.toNat_of_nonneg (by omega), ← zpow_add₀ (by norm_num)]
  congr 2
  omega

theorem toRat_finite (x : Float64) (h : x.isFinite = true) :
    x.toRat = (if x.sign then -1 else 1) * x.absRat := by
  unfold toRat absRat
  rw [if_pos h, mul_assoc]

/-- The remainder test of `math.Mod`, on exact values: the value of `x` is an integer multiple
of the magnitude of `y`. -/
theorem rem_zero_iff (x y : Float64) (hx : x.isFinite = true) :
    (x.mant * 2 ^ (x.exp2 - min x.exp2 y.exp2).toNat)
        % (y.mant * 2 ^ (y.exp2 - min x.exp2 y.exp2).toNat) = 0
      ↔ ∃ k : ℤ, x.toRat = k * y.absRat := by
  have ha := scale_cast x.mant x.exp2 (min x.exp2 y.exp2) (min_le_left _ _)
  have hb := scale_cast y.mant y.exp2 (min x.exp2 y.exp2) (min_le_right _ _)
  generalize x.mant * 2 ^ (x.exp2 - min x.exp2 y.exp2).toNat = a at *
  generalize y.mant * 2 ^ (y.exp2 - min x.exp2 y.exp2).toNat = b at *
  have h2 : (2 : ℚ) ^ (min x.exp2 y.exp2) ≠ 0 := zpow_ne_zero _ (by norm_num)
  rw [toRat_finite x hx, absRat, absRat, ← ha, ← hb, ← Nat.dvd_iff_mod_eq_zero]
  constructor
  · rintro ⟨c, rfl⟩
    by_cases hs : x.sign = true
    · refine ⟨-(c : ℤ), ?_⟩
      rw [if_pos hs]; push_cast; ring
    · refine ⟨(c : ℤ), ?_⟩
      rw [if_neg hs]; push_cast; ring
  · rintro ⟨k, hk⟩
    have hk' : (if x.sign = true then (-1 : ℚ) else 1) * (a : ℚ) = (k : ℚ) * (b : ℚ) := by
      have := hk
      rw [← mul_assoc, ← mul_assoc] at this
      exact mul_right_cancel₀ h2 this
    by_cases hs : x.sign = true
    · rw [if_pos hs] at hk'
      have h3 : ((a : ℤ) : ℚ) = ((-k * (b : ℤ) : ℤ) : ℚ) := by
        push_cast; linarith
      have h4 : (a : ℤ) = -k * (b : ℤ) := by exact_mod_cast h3
      have h5 : (b : ℤ) ∣ (a : ℤ) := ⟨-k, by rw [h4]; ring⟩
      exact Int.natCast_dvd_natCast.mp h5
    · rw [if_neg hs] at hk'
      have h3 : ((a : ℤ) : ℚ) = ((k * (b : ℤ) : ℤ) : ℚ) := by
        push_cast; linarith
      have h4 : (a : ℤ) = k * (b : ℤ) := by exact_mod_cast h3
      have h5 : (b : ℤ) ∣ (a : ℤ) := ⟨k, by rw [h4]; ring⟩
      exact Int.natCast_dvd_natCast.mp h5

theorem absRat_one : one.absRat = 1 := by
  have h1 : one.mant = 4503599627370496 := rfl
  have h2 : one.exp2 = -52 := rfl
  rw [absRat, h1, h2]
  norm_num

theorem absRat_quarter : quarter.absRat = 1 / 4 := by
  have h1 : quarter.mant = 4503599627370496 := rfl
  have h2 : quarter.exp2 = -54 := rfl
  rw [absRat, h1, h2]
  norm_num

end Float64

theorem roundDollar_iff (total : Float64) : feq (Mod total one) zero = true ↔ isWhole total := by
  rw [mod_feq_zero total one rfl rfl]
  unfold isWhole
  constructor
  · rintro ⟨hf, h⟩
    refine ⟨hf, ?_⟩
    have := (rem_zero_iff total one hf).mp h
    simpa [absRat_one] using this
  · rintro ⟨hf, h⟩
    refine ⟨hf, (rem_zero_iff total one hf).mpr ?_⟩
    simpa [absRat_one] using h

theorem quarter_iff (total : Float64) :
    feq (Mod total quarter) zero = true ↔ isQuarterMultiple total := by
  rw [mod_feq_zero total quarter rfl rfl]
  unfold isQuarterMultiple
  constructor
  · rintro ⟨hf, h⟩
    refine ⟨hf, ?_⟩
    have := (rem_zero_iff total quarter hf).mp h
    simpa [absRat_quarter] using this
  · rintro ⟨hf, h⟩
    refine ⟨hf, (rem_zero_iff total quarter hf).mpr ?_⟩
    simpa [absRat_quarter] using h

theorem isWhole_quarter (total : Float64) (h : isWhole total) : isQuarterMultiple total := by
  obtain ⟨hf, k, hk⟩ := h
  refine ⟨hf, 4 * k, ?_⟩
  rw [hk]; push_cast; ring
namespace Float64

theorem mant_lt (x : Float64) : x.mant < 9007199254740992 := by
  unfold mant
  have := x.frac.isLt
  split_ifs <;> omega

theorem exp2_le (x : Float64) : x.exp2 ≤ 972 := by
  unfold exp2
  have := x.expo.isLt
  split_ifs <;> omega

theorem exp2_le_of_finite (x : Float64) (h : x.isFinite = true) : x.exp2 ≤ 971 := by
  unfold exp2
  have := x.expo.isLt
  simp only [isFinite, bne_iff_ne, ne_eq] at h
  split_ifs <;> omega

theorem roundNE_isFinite (neg : Bool) (m : Nat) (e : Int) (h : e + (bitLen m : Int) ≤ 1023) :
    (roundNE neg m e).isFinite = true := by
  simp only [roundNE]
  split_ifs <;> simp [isFinite, pack_expo, inf] <;> omega

theorem bitLen_le_of_lt (m k : Nat) (h : m < 2 ^ k) : bitLen m ≤ k := by
  by_cases hm : m = 0
  · subst hm
    have : bitLen 0 = 0 := rfl
    omega
  · have h1 := bitLen_le m hm
    have h2 : 2 ^ (bitLen m - 1) < 2 ^ k := lt_of_le_of_lt h1 h
    have h3 := (Nat.pow_lt_pow_iff_right (by norm_num : 1 < 2)).mp h2
    omega

theorem mul_point2_eq (x : Float64) (h : x.isFinite = true) :
    mul x point2 = roundNE x.sign (x.mant * 7205759403792794) (x.exp2 + -55) := by
  obtain ⟨hi, hn⟩ := (isFinite_iff x).mp h
  have h1 : point2.isNaN = false := rfl
  have h2 : point2.isInf = false := rfl
  have h3 : point2.sign = false := rfl
  have h4 : point2.mant = 7205759403792794 := rfl
  have h5 : point2.exp2 = -55 := rfl
  unfold mul
  simp only [hi, hn, h1, h2, h3, h4, h5, Bool.or_self, Bool.false_eq_true, if_false, Bool.xor_false]

theorem mul_point2_isFinite (x : Float64) (h : x.isFinite = true) :
    (mul x point2).isFinite = true := by
  rw [mul_point2_eq x h]
  apply roundNE_isFinite
  have h1 := mant_lt x
  have h2 := exp2_le_of_finite x h
  have h3 : x.mant * 7205759403792794 < 2 ^ 106 := by
    calc x.mant * 7205759403792794 < 9007199254740992 * 9007199254740992 := by
          apply Nat.mul_lt_mul'' h1 (by norm_num)
      _ = 2 ^ 106 := by norm_num
  have h4 := bitLen_le_of_lt _ _ h3
  omega

theorem toRat_nonneg_mant (x : Float64) (h : x.isFinite = true) (hs : x.sign = true)
    (h0 : 0 ≤ x.toRat) : x.mant = 0 := by
  unfold toRat at h0
  rw [if_pos h, if_pos hs] at h0
  have h2 : (0 : ℚ) < (2 : ℚ) ^ x.exp2 := zpow_pos (by norm_num) _
  by_contra hm
  have h3 : (0 : ℚ) < (x.mant : ℚ) := by exact_mod_cast Nat.pos_of_ne_zero hm
  have : (-1 : ℚ) * (x.mant : ℚ) * (2 : ℚ) ^ x.exp2 < 0 := by
    have := mul_pos h3 h2
    linarith
  linarith

theorem mul_point2_sign (x : Float64) (h : x.isFinite = true) (h0 : 0 ≤ x.toRat) :
    (mul x point2).sign = false ∨ (mul x point2).isZero = true := by
  rw [mul_point2_eq x h]
  by_cases hs : x.sign = true
  · right
    rw [toRat_nonneg_mant x h hs h0]
    rfl
  · left
    rw [roundNE_sign]
    simpa using hs

/-- A positive integer below `2 ^ 53` is a `float64`, exactly. -/
theorem roundNE_small (n : Nat) (h0 : 0 < n) (h1 : n < 9007199254740992) :
    (roundNE false n 0).isFinite = true ∧ (roundNE false n 0).trunc = n := by
  have hL1 := bitLen_pos n (by omega)
  have hL2 := bitLen_le_of_lt n 53 (by norm_num; exact h1)
  have hlo := bitLen_le n (by omega)
  have hhi := bitLen_lt n
  obtain ⟨p, hp⟩ : ∃ p, p = 2 ^ (53 - bitLen n) := ⟨_, rfl⟩
  have hp1 : 2 ^ (bitLen n - 1) * p = 4503599627370496 := by
    rw [hp, ← pow_add]
    have : bitLen n - 1 + (53 - bitLen n) = 52 := by omega
    rw [this]; norm_num
  have hp2 : 2 ^ bitLen n * p = 9007199254740992 := by
    rw [hp, ← pow_add]
    have : bitLen n + (53 - bitLen n) = 53 := by omega
    rw [this]; norm_num
  have hppos : 0 < p := by rw [hp]; positivity
  have hs1 : 4503599627370496 ≤ n * p := by
    rw [← hp1]; exact Nat.mul_le_mul_right p hlo
  have hs2 : n * p < 9007199254740992 := by
    rw [← hp2]; exact Nat.mul_lt_mul_of_pos_right hhi hppos
  have hq : max ((0 : Int) + (bitLen n : Int) - 53) (-1074) = (bitLen n : Int) - 53 := by omega
  have hsig : roundSig n 0 ((bitLen n : Int) - 53) = n * p := by
    unfold roundSig
    rw [if_pos (by omega)]
    have : ((0 : Int) - ((bitLen n : Int) - 53)).toNat = 53 - bitLen n := by omega
    rw [this, hp]
  have hz : roundNE false n 0
      = pack false ((bitLen n : Int) - 53 + 1075).toNat (n * p - 4503599627370496) := by
    simp only [roundNE, if_neg (show n ≠ 0 by omega), hq, hsig,
      if_neg (show n * p ≠ 9007199254740992 by omega),
      if_neg (show ¬ n * p < 4503599627370496 by omega),
      if_neg (show ¬ (2047 : Int) ≤ (bitLen n : Int) - 53 + 1075 by omega)]
  have he : ((bitLen n : Int) - 53 + 1075).toNat % 2048 = bitLen n + 1022 := by omega
  have hf : (n * p - 4503599627370496) % 4503599627370496 = n * p - 4503599627370496 := by omega
  rw [hz]
  refine ⟨by simp [isFinite, pack_expo, he]; omega, ?_⟩
  have hm : (pack false ((bitLen n : Int) - 53 + 1075).toNat (n * p - 4503599627370496)).mant
      = n * p := by
    unfold mant
    rw [pack_expo, pack_frac, he, hf, if_neg (by omega)]
    omega
  have hx : (pack false ((bitLen n : Int) - 53 + 1075).toNat (n * p - 4503599627370496)).exp2
      = (bitLen n : Int) - 53 := by
    unfold exp2
    rw [pack_expo, he, if_neg (by omega)]
    push_cast; omega
  unfold trunc
  simp only [hm, hx, pack_sign, Bool.false_eq_true, if_false]
  by_cases h53 : bitLen n = 53
  · have hp' : p = 1 := by rw [hp, h53]; rfl
    rw [if_pos (by omega), hp', h53]
    simp
  · rw [if_neg (by omega)]
    have : (-((bitLen n : Int) - 53)).toNat = 53 - bitLen n := by omega
    rw [this, ← hp, Nat.mul_div_cancel _ hppos]

end Float64
namespace Float64

theorem mant_eq_zero_of_isZero (y : Float64) (h : y.isZero = true) : y.mant = 0 := by
  simp only [isZero, Bool.and_eq_true, beq_iff_eq] at h
  unfold mant
  rw [if_pos h.1, h.2]

theorem mant_ne_zero_of_not_isZero (y : Float64) (h : y.isZero = false) : y.mant ≠ 0 := by
  unfold mant
  intro hm
  split_ifs at hm with h1
  · simp [isZero, h1, hm] at h
  · omega

theorem nat_ceil_div (m d : Nat) (hd : 0 < d) :
    ⌈(m : ℚ) / (d : ℚ)⌉ = (((m + d - 1) / d : Nat) : ℤ) := by
  rw [Int.ceil_eq_iff]
  have hdq : (0 : ℚ) < (d : ℚ) := by exact_mod_cast hd
  have h1 := Nat.div_add_mod (m + d - 1) d
  have h2 := Nat.mod_lt (m + d - 1) hd
  generalize (m + d - 1) / d = n at *
  generalize (m + d - 1) % d = r at *
  constructor
  · rw [lt_div_iff₀ hdq]
    have : (n : ℤ) * d - d < m := by
      have : ((d * n + r : Nat) : ℤ) = ((m + d - 1 : Nat) : ℤ) := by rw [h1]
      push_cast [Nat.cast_sub (show 1 ≤ m + d by omega)] at this
      nlinarith
    have h3 : (((n : ℤ) * d - d : ℤ) : ℚ) < ((m : ℤ) : ℚ) := by exact_mod_cast this
    push_cast at h3 ⊢
    linarith
  · rw [div_le_iff₀ hdq]
    have : (m : ℤ) ≤ (n : ℤ) * d := by
      have : ((d * n + r : Nat) : ℤ) = ((m + d - 1 : Nat) : ℤ) := by rw [h1]
      push_cast [Nat.cast_sub (show 1 ≤ m + d by omega)] at this
      have h2' : (r : ℤ) < d := by exact_mod_cast h2
      nlinarith
    have h3 : (((m : ℤ)) : ℚ) ≤ (((n : ℤ) * d : ℤ) : ℚ) := by exact_mod_cast this
    push_cast at h3 ⊢
    linarith

theorem ceil_div_le (m d : Nat) (hd : 0 < d) : (m + d - 1) / d ≤ m := by
  rw [Nat.div_le_iff_le_mul_add_pred hd]
  have : m * 1 ≤ d * m := by rw [mul_comm d m]; exact Nat.mul_le_mul_left m hd
  omega

/-- On a finite value that is not negative, `math.Ceil` gives the ceiling of the exact
value. -/
theorem Ceil_spec (y : Float64) (hf : y.isFinite = true)
    (hs : y.sign = false ∨ y.isZero = true) :
    (Ceil y).isFinite = true ∧ (Ceil y).trunc = ⌈y.toRat⌉ := by
  obtain ⟨hi, hn⟩ := (isFinite_iff y).mp hf
  by_cases hz : y.isZero = true
  · have hc : Ceil y = y := by
      unfold Ceil; rw [hz]; simp
    have hm := mant_eq_zero_of_isZero y hz
    rw [hc]
    refine ⟨hf, ?_⟩
    have h1 : y.trunc = 0 := by
      unfold trunc; rw [hm]; simp
    have h2 : y.toRat = 0 := by
      unfold toRat; rw [hm]; simp
    rw [h1, h2]; simp
  · have hz' : y.isZero = false := by simpa using hz
    have hsign : y.sign = false := by
      rcases hs with h | h
      · exact h
      · exact absurd h hz
    have hm0 := mant_ne_zero_of_not_isZero y hz'
    have hrat : y.toRat = (y.mant : ℚ) * (2 : ℚ) ^ y.exp2 := by
      unfold toRat; rw [if_pos hf, hsign]; simp
    by_cases he : 0 ≤ y.exp2
    · have hc : Ceil y = y := by
        unfold Ceil; rw [hz', hi, hn]; simp [he]
      rw [hc]
      refine ⟨hf, ?_⟩
      have h1 : y.trunc = ((y.mant * 2 ^ y.exp2.toNat : Nat) : ℤ) := by
        unfold trunc; rw [if_pos he, hsign]; simp
      have h2 : y.toRat = ((y.mant * 2 ^ y.exp2.toNat : Nat) : ℚ) := by
        rw [hrat]; push_cast
        rw [← zpow_natCast, Int.toNat_of_nonneg he]
      rw [h1, h2, Int.ceil_natCast]
    · have hd : 0 < 2 ^ (-y.exp2).toNat := by positivity
      have hc : Ceil y = roundNE false ((y.mant + 2 ^ (-y.exp2).toNat - 1) / 2 ^ (-y.exp2).toNat) 0 := by
        unfold Ceil; rw [hz', hi, hn, hsign]; simp [he]
      have hn1 : 0 < (y.mant + 2 ^ (-y.exp2).toNat - 1) / 2 ^ (-y.exp2).toNat := by
        apply Nat.div_pos _ hd
        omega
      have hn2 : (y.mant + 2 ^ (-y.exp2).toNat - 1) / 2 ^ (-y.exp2).toNat < 9007199254740992 :=
        lt_of_le_of_lt (ceil_div_le _ _ hd) (mant_lt y)
      obtain ⟨h1, h2⟩ := roundNE_small _ hn1 hn2
      rw [hc]
      refine ⟨h1, ?_⟩
      rw [h2, hrat]
      have h3 : (2 : ℚ) ^ y.exp2 = 1 / ((2 ^ (-y.exp2).toNat : Nat) : ℚ) := by
        push_cast
        rw [← zpow_natCast, Int.toNat_of_nonneg (by omega), zpow_neg]
        simp
      rw [h3, mul_one_div, nat_ceil_div _ _ hd]

theorem toRat_nonneg (y : Float64) (hs : y.sign = false ∨ y.isZero = true) : 0 ≤ y.toRat := by
  unfold toRat
  split_ifs with h1 h2
  · rcases hs with h | h
    · rw [h] at h2; exact absurd h2 (by simp)
    · rw [mant_eq_zero_of_isZero y h]; simp
  · have : (0 : ℚ) ≤ (2 : ℚ) ^ y.exp2 := (zpow_pos (by norm_num) _).le
    have h3 : (0 : ℚ) ≤ (y.mant : ℚ) := by positivity
    simpa using mul_nonneg h3 this
  · exact le_rfl

/-- The conversion `int(math.Ceil(y))`, when the ceiling fits in an `int`. -/
theorem toInt_Ceil (conv : Float64 → Int) (y : Float64) (hf : y.isFinite = true)
    (hs : y.sign = false ∨ y.isZero = true) (hr : ⌈y.toRat⌉ < 9223372036854775808) :
    toInt conv (Ceil y) = ⌈y.toRat⌉ := by
  obtain ⟨h1, h2⟩ := Ceil_spec y hf hs
  have h0 : 0 ≤ ⌈y.toRat⌉ := Int.ceil_nonneg (toRat_nonneg y hs)
  unfold toInt
  rw [if_pos ⟨h1, by rw [h2]; omega, by rw [h2]; exact hr⟩, h2]

end Float64

theorem priceBonus_eq (R : Runtime) (item : ReceiptItem) (hf : item.Price.isFinite = true)
    (h0 : 0 ≤ item.Price.toRat)
    (hr : ⌈(mul item.Price point2).toRat⌉ < 9223372036854775808) :
    priceBonus R item = ⌈(mul item.Price point2).toRat⌉ :=
  toInt_Ceil _ _ (mul_point2_isFinite _ hf) (mul_point2_sign _ hf h0) hr

/-! ## C9: the rules on the total -/

/-- C9: the two rules on the total contribute together 75 (= 50 + 25) when the total has zero
fractional part, 25 when the total is an exact multiple of 0.25 that is not a whole number,
and 0 otherwise (infinities and NaN included); the score contains that amount. In particular
every round-dollar total receives both bonuses. -/
theorem total_rules (R : Runtime) (receipt : Receipt) :
    (isWhole receipt.Total →
        roundDollarPoints receipt.Total = 50 ∧ quarterPoints receipt.Total = 25
          ∧ roundDollarPoints receipt.Total + quarterPoints receipt.Total = 75)
      ∧ (isQuarterMultiple receipt.Total → ¬ isWhole receipt.Total →
          roundDollarPoints receipt.Total + quarterPoints receipt.Total = 25)
      ∧ (¬ isQuarterMultiple receipt.Total →
          roundDollarPoints receipt.Total + quarterPoints receipt.Total = 0)
      ∧ pointGenerator R receipt
          = wrap64 (retailerPoints R receipt.Retailer + descriptionPoints R receipt.Items
              + (roundDollarPoints receipt.Total + quarterPoints receipt.Total)
              + pairPoints receipt.Items + oddDayPoints (purchaseDateTime receipt)
              + afternoonPoints (purchaseDateTime receipt)) := by
  refine ⟨?_, ?_, ?_, ?_⟩
  · intro hw
    have hq := isWhole_quarter _ hw
    have h1 : roundDollarPoints receipt.Total = 50 := by
      unfold roundDollarPoints; rw [if_pos ((roundDollar_iff _).mpr hw)]
    have h2 : quarterPoints receipt.Total = 25 := by
      unfold quarterPoints; rw [if_pos ((quarter_iff _).mpr hq)]
    exact ⟨h1, h2, by rw [h1, h2]; rfl⟩
  · intro hq hw
    unfold roundDollarPoints quarterPoints
    rw [if_pos ((quarter_iff _).mpr hq), if_neg (fun h => hw ((roundDollar_iff _).mp h))]
    rfl
  · intro hq
    have hw : ¬ isWhole receipt.Total := fun h => hq (isWhole_quarter _ h)
    unfold roundDollarPoints quarterPoints
    rw [if_neg (fun h => hq ((quarter_iff _).mp h)), if_neg (fun h => hw ((roundDollar_iff _).mp h))]
    rfl
  · rw [pointGenerator_eq_sum]
    congr 1
    ring

set_option maxRecDepth 1000000 in
/-- Witness of C9: the totals 10.00 (whole: 75), 35.25 (a quarter multiple that is not whole:
25) and 35.35 (neither: 0). -/
theorem total_rules_witness :
    (isWhole (ofDecimal 1000 2)
        ∧ roundDollarPoints (ofDecimal 1000 2) + quarterPoints (ofDecimal 1000 2) = 75)
      ∧ (isQuarterMultiple (ofDecimal 3525 2) ∧ ¬ isWhole (ofDecimal 3525 2)
        ∧ roundDollarPoints (ofDecimal 3525 2) + quarterPoints (ofDecimal 3525 2) = 25)
      ∧ (¬ isQuarterMultiple (ofDecimal 3535 2)
        ∧ roundDollarPoints (ofDecimal 3535 2) + quarterPoints (ofDecimal 3535 2) = 0) :=
  ⟨⟨(roundDollar_iff _).mp (by rfl),
      ((total_rules sampleRuntime (receiptOfTotal (ofDecimal 1000 2))).1
        ((roundDollar_iff _).mp (by rfl))).2.2⟩,
    ⟨(quarter_iff _).mp (by rfl), fun h => absurd ((roundDollar_iff _).mpr h) (by decide!),
      (total_rules sampleRuntime (receiptOfTotal (ofDecimal 3525 2))).2.1
        ((quarter_iff _).mp (by rfl))
        (fun h => absurd ((roundDollar_iff _).mpr h) (by decide!))⟩,
    ⟨fun h => absurd ((quarter_iff _).mpr h) (by decide!),
      (total_rules sampleRuntime (receiptOfTotal (ofDecimal 3535 2))).2.2.1
        (fun h => absurd ((quarter_iff _).mpr h) (by decide!))⟩⟩

/-! ## C10: the description-length rule -/

theorem price_in_range (p : Float64) (hf : p.isFinite = true) (hs : p.sign = false)
    (hb : (Ceil (mul p point2)).trunc < 9223372036854775808) :
    p.isFinite = true ∧ 0 ≤ p.toRat ∧ ⌈(mul p point2).toRat⌉ < 9223372036854775808 := by
  have h0 := toRat_nonneg p (Or.inl hs)
  refine ⟨hf, h0, ?_⟩
  rw [← (Ceil_spec _ (mul_point2_isFinite p hf) (mul_point2_sign p hf h0)).2]
  exact hb

set_option maxRecDepth 1000000 in
/-- C10, counterexample: for the single item ("abc", 100000000000000000000), whose price is
finite and non-negative and whose description has length 3, the ceiling of price * 0.2 is
20000000000000000000, but on no runtime is that the contribution of the rule: the conversion
to `int` cannot represent it. With the conversion of amd64 the score of the receipt is
negative. -/
theorem huge_price_not_ceiling :
    hugePriceReceipt.Items = [⟨"abc", ofDecimal 100000000000000000000 0⟩]
      ∧ descriptionCounts ⟨"abc", ofDecimal 100000000000000000000 0⟩ = true
      ∧ (ofDecimal 100000000000000000000 0).isFinite = true
      ∧ 0 ≤ (ofDecimal 100000000000000000000 0).toRat
      ∧ ⌈(mul (ofDecimal 100000000000000000000 0) point2).toRat⌉ = 20000000000000000000
      ∧ (¬ ∃ R : Runtime, descriptionPoints R hugePriceReceipt.Items = 20000000000000000000)
      ∧ pointGenerator sampleRuntime hugePriceReceipt = -9223372036854775796 := by
  have hf : (ofDecimal 100000000000000000000 0).isFinite = true := by rfl
  have hs : (ofDecimal 100000000000000000000 0).sign = false := by rfl
  have h0 := toRat_nonneg (ofDecimal 100000000000000000000 0) (Or.inl hs)
  have hc := (Ceil_spec _ (mul_point2_isFinite _ hf) (mul_point2_sign _ hf h0)).2
  have ht : (Ceil (mul (ofDecimal 100000000000000000000 0) point2)).trunc
      = 20000000000000000000 := by rfl
  refine ⟨by rfl, by rfl, hf, h0, by rw [← hc, ht], ?_, by rfl⟩
  rintro ⟨R, hR⟩
  have hd : descriptionPoints R hugePriceReceipt.Items
      = wrap64 (R.convOverflow (Ceil (mul (ofDecimal 100000000000000000000 0) point2))) := by
    have hcount : hugePriceReceipt.Items.filter descriptionCounts
        = [⟨"abc", ofDecimal 100000000000000000000 0⟩] := by rfl
    have hcond : ¬ ((Ceil (mul (ofDecimal 100000000000000000000 0) point2)).isFinite = true
        ∧ -9223372036854775808 ≤ (Ceil (mul (ofDecimal 100000000000000000000 0) point2)).trunc
        ∧ (Ceil (mul (ofDecimal 100000000000000000000 0) point2)).trunc
            < 9223372036854775808) := by
      rw [ht]; omega
    simp only [descriptionPoints, hcount, List.map_cons, List.map_nil, List.sum_cons,
      List.sum_nil, add_zero, priceBonus, toInt, if_neg hcond]
  rw [hd] at hR
  have := wrap64_range (R.convOverflow (Ceil (mul (ofDecimal 100000000000000000000 0) point2)))
  omega

/-- C10, amended: for every list of items whose prices are finite and non-negative and whose
ceilings of price * 0.2 (the `float64` product) are below 2 ^ 63, the description-length rule
contributes to the score the sum, over exactly the items whose description has, after
trimming, a length in bytes that is a multiple of 3 (0 included), of the ceiling of
price * 0.2; the other items contribute nothing. -/
theorem description_rule (R : Runtime) (receipt : Receipt)
    (hprice : ∀ item ∈ receipt.Items, item.Price.isFinite = true ∧ 0 ≤ item.Price.toRat
      ∧ ⌈(mul item.Price point2).toRat⌉ < 9223372036854775808) :
    pointGenerator R receipt
        = wrap64 (retailerPoints R receipt.Retailer
            + ((receipt.Items.filter
                  (fun item => len (TrimSpace item.ShortDescription) % 3 == 0)).map
                (fun item => ⌈(mul item.Price point2).toRat⌉)).sum
            + roundDollarPoints receipt.Total + quarterPoints receipt.Total
            + pairPoints receipt.Items + oddDayPoints (purchaseDateTime receipt)
            + afternoonPoints (purchaseDateTime receipt))
      ∧ (∀ item : ReceiptItem, TrimSpace item.ShortDescription = "" →
          len (TrimSpace item.ShortDescription) % 3 = 0) := by
  refine ⟨?_, fun item h => by rw [h]; rfl⟩
  have hd : descriptionPoints R receipt.Items
      = ((receipt.Items.filter descriptionCounts).map
          (fun item => ⌈(mul item.Price point2).toRat⌉)).sum := by
    unfold descriptionPoints
    congr 1
    apply List.map_congr_left
    intro item hi
    have hmem : item ∈ receipt.Items := (List.mem_filter.mp hi).1
    obtain ⟨h1, h2, h3⟩ := hprice item hmem
    exact priceBonus_eq R item h1 h2 h3
  rw [pointGenerator_eq_sum, hd]
  rfl

set_option maxRecDepth 1000000 in
/-- Witness of C10 (amended): the items of the reference receipt, of which the second and the
fifth are counted, for 3 points each. -/
theorem description_rule_witness :
    (∀ item ∈ targetReceipt.Items, item.Price.isFinite = true ∧ 0 ≤ item.Price.toRat
        ∧ ⌈(mul item.Price point2).toRat⌉ < 9223372036854775808)
      ∧ pointGenerator sampleRuntime targetReceipt
        = wrap64 (retailerPoints sampleRuntime targetReceipt.Retailer
            + ((targetReceipt.Items.filter
                  (fun item => len (TrimSpace item.ShortDescription) % 3 == 0)).map
                (fun item => ⌈(mul item.Price point2).toRat⌉)).sum
            + roundDollarPoints targetReceipt.Total + quarterPoints targetReceipt.Total
            + pairPoints targetReceipt.Items + oddDayPoints (purchaseDateTime targetReceipt)
            + afternoonPoints (purchaseDateTime targetReceipt)) :=
  have hp : ∀ item ∈ targetReceipt.Items, item.Price.isFinite = true ∧ 0 ≤ item.Price.toRat
      ∧ ⌈(mul item.Price point2).toRat⌉ < 9223372036854775808 := by
    intro item hi
    simp only [targetReceipt, List.mem_cons, List.mem_singleton, List.not_mem_nil, or_false] at hi
    rcases hi with rfl | rfl | rfl | rfl | rfl <;>
      exact price_in_range _ (by rfl) (by rfl) (by decide!)
  ⟨hp, (description_rule sampleRuntime targetReceipt hp).1⟩

/-! ## C11: the order of the items -/

theorem descriptionPoints_perm (R : Runtime) (items items' : List ReceiptItem)
    (hp : items.Perm items') : descriptionPoints R items = descriptionPoints R items' :=
  ((hp.filter descriptionCounts).map (priceBonus R)).sum_eq

theorem pairPoints_perm (items items' : List ReceiptItem) (hp : items.Perm items') :
    pairPoints items = pairPoints items' := by
  unfold pairPoints
  rw [hp.length_eq]

/-- C11: reordering the items of a receipt by any permutation leaves the score unchanged; the
description-length rule and the pair rule each contribute the same amount. -/
theorem items_order_irrelevant (R : Runtime) (receipt : Receipt) (items : List ReceiptItem)
    (hp : items.Perm receipt.Items) :
    pointGenerator R { receipt with Items := items } = pointGenerator R receipt
      ∧ descriptionPoints R items = descriptionPoints R receipt.Items
      ∧ pairPoints items = pairPoints receipt.Items := by
  refine ⟨?_, descriptionPoints_perm R _ _ hp, pairPoints_perm _ _ hp⟩
  rw [pointGenerator_eq_sum, pointGenerator_eq_sum]
  have h1 : purchaseDateTime { receipt with Items := items } = purchaseDateTime receipt := rfl
  simp only [h1, descriptionPoints_perm R _ _ hp, pairPoints_perm _ _ hp]

set_option maxRecDepth 1000000 in
/-- Witness of C11: the reference receipt with its five items in reverse order still scores
28. -/
theorem items_order_irrelevant_witness :
    targetReceipt.Items.reverse.Perm targetReceipt.Items
      ∧ pointGenerator sampleRuntime { targetReceipt with Items := targetReceipt.Items.reverse }
        = pointGenerator sampleRuntime targetReceipt
      ∧ pointGenerator sampleRuntime { targetReceipt with Items := targetReceipt.Items.reverse }
        = 28 :=
  ⟨List.reverse_perm _,
    (items_order_irrelevant sampleRuntime targetReceipt targetReceipt.Items.reverse
      (List.reverse_perm _)).1, by rfl⟩

/-! ## C12: a duplicate changes nothing -/

/-- C12: in every database, if `CreateReceipt` returns the duplicate-receipt error, then the
database after the call is the database before it, the identifier returned is empty, and the
outcome does not depend on the environment (no identifier is generated, nothing is
written). -/
theorem duplicate_leaves_store (R : Runtime) (env : Env) (db : Store) (receipt : Receipt)
    (hdup : (CreateReceipt R env db receipt).2.2 = some .duplicateReceipt) :
    (CreateReceipt R env db receipt).1 = db
      ∧ (CreateReceipt R env db receipt).2.1 = ""
      ∧ ∀ env' : Env, CreateReceipt R env' db receipt = (db, "", some .duplicateReceipt) := by
  have h := (createReceipt_dup_iff R env db receipt).mp hdup
  have h' := fun env' => createReceipt_dup R env' db receipt h
  refine ⟨by rw [h' env], by rw [h' env], h'⟩

set_option maxRecDepth 1000000 in
/-- Witness of C12: the reference receipt submitted a second time. -/
theorem duplicate_leaves_store_witness :
    (CreateReceipt sampleRuntime (sampleEnv 2)
        (CreateReceipt sampleRuntime (sampleEnv 1) Store.empty targetReceipt).1 targetReceipt).2.2
        = some .duplicateReceipt
      ∧ (CreateReceipt sampleRuntime (sampleEnv 2)
          (CreateReceipt sampleRuntime (sampleEnv 1) Store.empty targetReceipt).1 targetReceipt).1
        = (CreateReceipt sampleRuntime (sampleEnv 1) Store.empty targetReceipt).1
      ∧ (CreateReceipt sampleRuntime (sampleEnv 2)
          (CreateReceipt sampleRuntime (sampleEnv 1) Store.empty targetReceipt).1 targetReceipt).2.1
        = "" :=
  ⟨by rfl,
    (duplicate_leaves_store sampleRuntime (sampleEnv 2)
      (CreateReceipt sampleRuntime (sampleEnv 1) Store.empty targetReceipt).1 targetReceipt
      (by rfl)).1,
    (duplicate_leaves_store sampleRuntime (sampleEnv 2)
      (CreateReceipt sampleRuntime (sampleEnv 1) Store.empty targetReceipt).1 targetReceipt
      (by rfl)).2.1⟩

/-! ## The identifier loop -/

theorem uuidLoop_congr (env env' : Env) (db : Store) (n : Nat) :
    ∀ (i : Nat) (st : UUID × Bool), (∀ j, i ≤ j → j < i + n → env'.NewUUID j = env.NewUUID j) →
      uuidLoop env' db i n st = uuidLoop env db i n st := by
  induction n with
  | zero => intro i st _; rfl
  | succ n ih =>
    intro i st h
    have hi : env'.NewUUID i = env.NewUUID i := h i le_rfl (by omega)
    have hrec : ∀ st', uuidLoop env' db (i + 1) n st' = uuidLoop env db (i + 1) n st' :=
      fun st' => ih (i + 1) st' (fun j h1 h2 => h j (by omega) (by omega))
    simp only [uuidLoop, hi, hrec]

theorem uuidLoop_all_collide (env : Env) (db : Store) (n : Nat) :
    ∀ (i : Nat) (st : UUID × Bool), st.2 = true →
      (∀ j, i ≤ j → j < i + n →
        (env.NewUUID j).ok = true ∧ (db (recordKey (env.NewUUID j).id.String)).isSome = true) →
      (uuidLoop env db i n st).2 = true := by
  induction n with
  | zero => intro i st hst _; exact hst
  | succ n ih =>
    intro i st _ h
    obtain ⟨hok, hsome⟩ := h i le_rfl (by omega)
    obtain ⟨v, hv⟩ := Option.isSome_iff_exists.mp hsome
    simp only [uuidLoop, hok, hv, Bool.not_true, Bool.false_eq_true, if_false]
    exact ih (i + 1) _ rfl (fun j h1 h2 => h j (by omega) (by omega))

/-- When every attempt yields an identifier, the loop ends without error only on an
identifier that has no record. -/
theorem uuidLoop_fresh (env : Env) (db : Store) (hgen : ∀ j, (env.NewUUID j).ok = true)
    (n : Nat) : ∀ (i : Nat) (st : UUID × Bool), st.2 = true →
      (uuidLoop env db i n st).2 = false →
      db (recordKey (uuidLoop env db i n st).1.String) = none := by
  induction n with
  | zero => intro i st hst h; simp [uuidLoop, hst] at h
  | succ n ih =>
    intro i st _ h
    simp only [uuidLoop, hgen i, Bool.not_true, Bool.false_eq_true, if_false] at h ⊢
    cases hdb : db (recordKey (env.NewUUID i).id.String) with
    | none => simp [hdb]
    | some v =>
      simp only [hdb] at h ⊢
      exact ih (i + 1) _ rfl h

/-! ## C13: three collisions -/

/-- C13: in every database, for a receipt that is not a duplicate, if each of the three
attempts yields an identifier that already has an entry under its record key, then
`CreateReceipt` fails with the error "could not create UUID for receipt", returns the empty
identifier and leaves the database unchanged; and it does so whatever the generator would
return after the third attempt and whatever the writes would do: no fourth attempt is made and
no write is tried. -/
theorem identifiers_exhausted (R : Runtime) (env : Env) (db : Store) (receipt : Receipt)
    (hnew : db (uniqueKey receipt) = none)
    (hcol : ∀ j, j < 3 →
      (env.NewUUID j).ok = true ∧ (db (recordKey (env.NewUUID j).id.String)).isSome = true) :
    CreateReceipt R env db receipt = (db, "", some .couldNotCreateUUID)
      ∧ ∀ env' : Env, (∀ j, j < 3 → env'.NewUUID j = env.NewUUID j) →
          CreateReceipt R env' db receipt = (db, "", some .couldNotCreateUUID) := by
  have hloop : (uuidLoop env db 0 3 (UUID.zero, true)).2 = true :=
    uuidLoop_all_collide env db 3 0 _ rfl (fun j _ h2 => hcol j (by omega))
  have hmain : ∀ env' : Env, (∀ j, j < 3 → env'.NewUUID j = env.NewUUID j) →
      CreateReceipt R env' db receipt = (db, "", some .couldNotCreateUUID) := by
    intro env' h
    have hc := uuidLoop_congr env env' db 3 0 (UUID.zero, true) (fun j _ h2 => h j (by omega))
    rw [createReceipt_eq, hc]
    simp [hnew, hloop]
  exact ⟨hmain env (fun _ _ => rfl), hmain⟩

set_option maxRecDepth 1000000 in
/-- Witness of C13: a database with records under the identifiers of values 1, 2 and 3, a
generator that returns exactly these, and a receipt that is not yet stored. -/
theorem identifiers_exhausted_witness :
    threeRecords (uniqueKey (retailerReceipt "Costco")) = none
      ∧ CreateReceipt sampleRuntime countingEnv threeRecords (retailerReceipt "Costco")
        = (threeRecords, "", some .couldNotCreateUUID) :=
  ⟨by rfl,
    (identifiers_exhausted sampleRuntime countingEnv threeRecords (retailerReceipt "Costco") (by rfl)
      (by
        intro j hj
        have h : j = 0 ∨ j = 1 ∨ j = 2 := by omega
        rcases h with rfl | rfl | rfl <;> exact ⟨by rfl, by rfl⟩)).1⟩

/-! ## The outcomes of `CreateReceipt` -/

theorem recordKey_inj (a b : String) (h : recordKey a = recordKey b) : a = b := by
  have h2 := congrArg String.data h
  simp only [recordKey, String.data_append, List.append_cancel_left_eq] at h2
  exact String.ext h2

/-- The six outcomes of `CreateReceipt`, each with the conditions under which it occurs. -/
theorem createReceipt_cases (R : Runtime) (env : Env) (db : Store) (receipt : Receipt) :
    ((db (uniqueKey receipt)).isSome = true
        ∧ CreateReceipt R env db receipt = (db, "", some .duplicateReceipt))
      ∨ (db (uniqueKey receipt) = none ∧ (uuidLoop env db 0 3 (UUID.zero, true)).2 = true
        ∧ CreateReceipt R env db receipt = (db, "", some .couldNotCreateUUID))
      ∨ (db (uniqueKey receipt) = none ∧ (uuidLoop env db 0 3 (UUID.zero, true)).2 = false
        ∧ (receipt.Total.isFinite && receipt.Items.all (fun item => item.Price.isFinite)) = false
        ∧ CreateReceipt R env db receipt = (db, "", some .unsupportedValue))
      ∨ (db (uniqueKey receipt) = none ∧ (uuidLoop env db 0 3 (UUID.zero, true)).2 = false
        ∧ env.recordWrite = false
        ∧ CreateReceipt R env db receipt = (db, "", some .writeFailed))
      ∨ (db (uniqueKey receipt) = none ∧ (uuidLoop env db 0 3 (UUID.zero, true)).2 = false
        ∧ env.recordWrite = true ∧ env.keyWrite = false
        ∧ CreateReceipt R env db receipt
          = (db.set (recordKey (uuidLoop env db 0 3 (UUID.zero, true)).1.String)
                (.record (storedReceipt R receipt (uuidLoop env db 0 3 (UUID.zero, true)).1)),
              (uuidLoop env db 0 3 (UUID.zero, true)).1.String, some .writeFailed))
      ∨ (db (uniqueKey receipt) = none ∧ (uuidLoop env db 0 3 (UUID.zero, true)).2 = false
        ∧ env.recordWrite = true ∧ env.keyWrite = true
        ∧ CreateReceipt R env db receipt
          = ((db.set (recordKey (uuidLoop env db 0 3 (UUID.zero, true)).1.String)
                (.record (storedReceipt R receipt (uuidLoop env db 0 3 (UUID.zero, true)).1))).set
                (uniqueKey receipt) (.ident (uuidLoop env db 0 3 (UUID.zero, true)).1),
              (uuidLoop env db 0 3 (UUID.zero, true)).1.String, none)) := by
  rw [createReceipt_eq]
  cases h1 : db (uniqueKey receipt) with
  | some v => left; simp
  | none =>
    right
    cases h2 : (uuidLoop env db 0 3 (UUID.zero, true)).2 with
    | true => left; simp
    | false =>
      right
      cases h3 : (receipt.Total.isFinite && receipt.Items.all (fun item => item.Price.isFinite)) with
      | false => left; simp
      | true =>
        right
        cases h4 : env.recordWrite with
        | false => left; simp
        | true =>
          right
          cases h5 : env.keyWrite with
          | false => left; simp
          | true => right; simp

/-! ## Identifiers of a generator that never fails -/

/-- When every attempt of the generator yields an identifier, a call that returns without
error returns an identifier that had no record before the call. -/
theorem createReceipt_fresh_of_generated (R : Runtime) (env : Env) (db : Store)
    (receipt : Receipt) (hgen : ∀ j, (env.NewUUID j).ok = true)
    (hok : (CreateReceipt R env db receipt).2.2 = none) :
    ∃ u : UUID, (CreateReceipt R env db receipt).2.1 = u.String
      ∧ db (recordKey u.String) = none := by
  rcases createReceipt_cases R env db receipt with
    ⟨_, e⟩ | ⟨_, _, e⟩ | ⟨_, _, _, e⟩ | ⟨_, _, _, e⟩ | ⟨_, _, _, _, e⟩ | ⟨_, h2, _, _, e⟩
  · rw [e] at hok; exact absurd hok (by simp)
  · rw [e] at hok; exact absurd hok (by simp)
  · rw [e] at hok; exact absurd hok (by simp)
  · rw [e] at hok; exact absurd hok (by simp)
  · rw [e] at hok; exact absurd hok (by simp)
  · rw [e]
    exact ⟨(uuidLoop env db 0 3 (UUID.zero, true)).1, rfl,
      uuidLoop_fresh env db hgen 3 0 (UUID.zero, true) rfl h2⟩

/-! ## The identifier of a new record -/

/-- When the last attempt of the loop returns no error, the loop ends without error only on
an identifier that has no record, whatever the earlier attempts returned. -/
theorem uuidLoop_fresh_of_last (env : Env) (db : Store) (n : Nat) :
    ∀ (i : Nat) (st : UUID × Bool), (env.NewUUID (i + n)).ok = true →
      (uuidLoop env db i (n + 1) st).2 = false →
      db (recordKey (uuidLoop env db i (n + 1) st).1.String) = none := by
  induction n with
  | zero =>
    intro i st hlast h
    rw [Nat.add_zero] at hlast
    simp only [uuidLoop, hlast, Bool.not_true, Bool.false_eq_true, if_false] at h ⊢
    cases hdb : db (recordKey (env.NewUUID i).id.String) with
    | none => simp [hdb]
    | some v => simp [hdb] at h
  | succ n ih =>
    intro i st hlast h
    have hlast2 : (env.NewUUID (i + 1 + n)).ok = true := by
      rw [show i + 1 + n = i + (n + 1) by omega]; exact hlast
    rw [uuidLoop] at h ⊢
    cases hg : (env.NewUUID i).ok with
    | false =>
      simp only [hg, Bool.not_false, if_true] at h ⊢
      exact ih (i + 1) _ hlast2 h
    | true =>
      simp only [hg, Bool.not_true, Bool.false_eq_true, if_false] at h ⊢
      cases hdb : db (recordKey (env.NewUUID i).id.String) with
      | none => simp [hdb]
      | some v =>
        simp only [hdb] at h ⊢
        exact ih (i + 1) _ hlast2 h

/-- A call that returns without error wrote the record of the receipt, with its score as
points, under the identifier it returns. -/
theorem createReceipt_ok_record (R : Runtime) (env : Env) (db : Store) (receipt : Receipt)
    (hok : (CreateReceipt R env db receipt).2.2 = none) :
    ∃ u : UUID, (CreateReceipt R env db receipt).2.1 = u.String
      ∧ (CreateReceipt R env db receipt).1 (recordKey u.String)
        = some (.record (storedReceipt R receipt u)) := by
  rcases createReceipt_cases R env db receipt with
    ⟨_, e⟩ | ⟨_, _, e⟩ | ⟨_, _, _, e⟩ | ⟨_, _, _, e⟩ | ⟨_, _, _, _, e⟩ | ⟨_, _, _, _, e⟩
  · rw [e] at hok; exact absurd hok (by simp)
  · rw [e] at hok; exact absurd hok (by simp)
  · rw [e] at hok; exact absurd hok (by simp)
  · rw [e] at hok; exact absurd hok (by simp)
  · rw [e] at hok; exact absurd hok (by simp)
  · rw [e]
    refine ⟨(uuidLoop env db 0 3 (UUID.zero, true)).1, rfl, ?_⟩
    simp only [Store.set, if_neg (Ne.symm (uniqueKey_ne_recordKey receipt _)), if_true]

/-- When the last attempt of the generator returns no error, a call of `CreateReceipt`
keeps every entry the database had. -/
theorem createReceipt_keeps (R : Runtime) (env : Env) (db : Store) (receipt : Receipt)
    (hlast : (env.NewUUID 2).ok = true) (k : String) (v : Value) (hk : db k = some v) :
    (CreateReceipt R env db receipt).1 k = some v := by
  have hfresh := uuidLoop_fresh_of_last env db 2 0 (UUID.zero, true) (by simpa using hlast)
  rcases createReceipt_cases R env db receipt with
    ⟨_, e⟩ | ⟨_, _, e⟩ | ⟨_, _, _, e⟩ | ⟨_, _, _, e⟩ | ⟨_, h2, _, _, e⟩ | ⟨h1, h2, _, _, e⟩
  · rw [e]; exact hk
  · rw [e]; exact hk
  · rw [e]; exact hk
  · rw [e]; exact hk
  · rw [e]
    have hne : k ≠ recordKey (uuidLoop env db 0 3 (UUID.zero, true)).1.String := by
      intro hkey; rw [hkey, hfresh h2] at hk; exact absurd hk (by simp)
    simp only [Store.set, if_neg hne]; exact hk
  · rw [e]
    have hne : k ≠ recordKey (uuidLoop env db 0 3 (UUID.zero, true)).1.String := by
      intro hkey; rw [hkey, hfresh h2] at hk; exact absurd hk (by simp)
    have hne2 : k ≠ uniqueKey receipt := by
      intro hkey; rw [hkey, h1] at hk; exact absurd hk (by simp)
    simp only [Store.set, if_neg hne, if_neg hne2]; exact hk

theorem runCalls_keeps (R : Runtime) (calls : List Call) :
    ∀ db : Store, (∀ c ∈ calls, c.thirdAttemptOk = true) →
      ∀ (k : String) (v : Value), db k = some v → runCalls R db calls k = some v := by
  induction calls with
  | nil => intro db _ k v hk; exact hk
  | cons c cs ih =>
    intro db hgen k v hk
    have hcs : ∀ c' ∈ cs, c'.thirdAttemptOk = true :=
      fun c' hc' => hgen c' (List.mem_cons_of_mem _ hc')
    cases c with
    | create env receipt =>
      have hc : (env.NewUUID 2).ok = true := hgen (.create env receipt) (List.mem_cons_self _ _)
      exact ih _ hcs k v (createReceipt_keeps R env db receipt hc k v hk)
    | getPoints id => exact ih db hcs k v hk

/-- C3: for every database, environment and receipt, if `CreateReceipt` returns without
error, then `GetPointsByID` of the identifier it returns gives the score of the receipt
without error, on the database the call leaves and on the database after any finite sequence
of further calls of `CreateReceipt` and `GetPointsByID` in which the third attempt of the
generator is never a generation failure. -/
theorem stored_points_persist (R : Runtime) (env : Env) (db : Store) (receipt : Receipt)
    (calls : List Call) (hok : (CreateReceipt R env db receipt).2.2 = none)
    (hgen : ∀ c ∈ calls, c.thirdAttemptOk = true) :
    GetPointsByID (CreateReceipt R env db receipt).1 (CreateReceipt R env db receipt).2.1
        = (pointGenerator R receipt, none)
      ∧ GetPointsByID (runCalls R (CreateReceipt R env db receipt).1 calls)
          (CreateReceipt R env db receipt).2.1
        = (pointGenerator R receipt, none) := by
  obtain ⟨u, hu, hrec⟩ := createReceipt_ok_record R env db receipt hok
  have hlater := runCalls_keeps R calls _ hgen _ _ hrec
  rw [hu]
  exact ⟨by simp [GetPointsByID, hrec, Unmarshal, storedReceipt],
    by simp [GetPointsByID, hlater, Unmarshal, storedReceipt]⟩

set_option maxRecDepth 1000000 in
/-- Witness of C3: the reference receipt is created on the empty database under the
identifier of value 1; after six further calls `GetPointsByID` of it still gives 28. -/
theorem stored_points_persist_witness :
    (CreateReceipt sampleRuntime (sampleEnv 1) Store.empty targetReceipt).2
        = ("00000000-0000-0000-0000-000000000001", none)
      ∧ (∀ c ∈ laterCalls, c.thirdAttemptOk = true)
      ∧ GetPointsByID
          (runCalls sampleRuntime
            (CreateReceipt sampleRuntime (sampleEnv 1) Store.empty targetReceipt).1 laterCalls)
          "00000000-0000-0000-0000-000000000001"
        = (28, none) :=
  ⟨by rfl,
    by
      intro c hc
      simp only [laterCalls, List.mem_cons, List.mem_singleton, List.not_mem_nil, or_false] at hc
      rcases hc with rfl | rfl | rfl | rfl | rfl | rfl <;> rfl,
    (stored_points_persist sampleRuntime (sampleEnv 1) Store.empty targetReceipt laterCalls
      (by rfl)
      (by
        intro c hc
        simp only [laterCalls, List.mem_cons, List.mem_singleton, List.not_mem_nil, or_false] at hc
        rcases hc with rfl | rfl | rfl | rfl | rfl | rfl <;> rfl)).2⟩

/-! ## C15: the client-supplied id and points -/

/-- C15: for every database, environment and receipt, replacing the `Id` and `Points` fields
of the receipt by any other values changes neither the score nor anything `CreateReceipt`
returns or writes; and when `CreateReceipt` returns without error, the record stored under
the returned identifier is the receipt with `Points` set to its score and `Id` set to the
returned identifier. -/
theorem client_fields_ignored (R : Runtime) (env : Env) (db : Store) (receipt : Receipt)
    (id : String) (points : Int) :
    pointGenerator R { receipt with Id := id, Points := points } = pointGenerator R receipt
      ∧ CreateReceipt R env db { receipt with Id := id, Points := points }
        = CreateReceipt R env db receipt
      ∧ ((CreateReceipt R env db receipt).2.2 = none →
          ∃ u : UUID, (CreateReceipt R env db receipt).2.1 = u.String
            ∧ (CreateReceipt R env db receipt).1 (recordKey u.String)
              = some (.record
                  { receipt with Points := pointGenerator R receipt, Id := u.String })) := by
  refine ⟨rfl, rfl, ?_⟩
  intro hok
  have hne := uniqueKey_ne_recordKey receipt (uuidLoop env db 0 3 (UUID.zero, true)).1
  rcases createReceipt_cases R env db receipt with
    ⟨_, e⟩ | ⟨_, _, e⟩ | ⟨_, _, _, e⟩ | ⟨_, _, _, e⟩ | ⟨_, _, _, _, e⟩ | ⟨_, _, _, _, e⟩
  · rw [e] at hok; exact absurd hok (by simp)
  · rw [e] at hok; exact absurd hok (by simp)
  · rw [e] at hok; exact absurd hok (by simp)
  · rw [e] at hok; exact absurd hok (by simp)
  · rw [e] at hok; exact absurd hok (by simp)
  · rw [e]
    refine ⟨(uuidLoop env db 0 3 (UUID.zero, true)).1, rfl, ?_⟩
    simp only [Store.set, if_neg (Ne.symm hne), if_true]
    rfl

set_option maxRecDepth 1000000 in
/-- Witness of C15: the reference receipt submitted with id "abc" and points 999 is stored
with the generated identifier and 28 points. -/
theorem client_fields_ignored_witness :
    (CreateReceipt sampleRuntime (sampleEnv 1) Store.empty
        { targetReceipt with Id := "abc", Points := 999 }).2
        = ("00000000-0000-0000-0000-000000000001", none)
      ∧ GetPointsByID (CreateReceipt sampleRuntime (sampleEnv 1) Store.empty
          { targetReceipt with Id := "abc", Points := 999 }).1
          "00000000-0000-0000-0000-000000000001" = (28, none)
      ∧ CreateReceipt sampleRuntime (sampleEnv 1) Store.empty
          { targetReceipt with Id := "abc", Points := 999 }
        = CreateReceipt sampleRuntime (sampleEnv 1) Store.empty targetReceipt :=
  ⟨by rfl, by rfl,
    (client_fields_ignored sampleRuntime (sampleEnv 1) Store.empty targetReceipt "abc" 999).2.1⟩

/-! ## C16: the odd-day rule on a well-formed date -/

theorem digitChar_toNat : ∀ k, k < 10 → (digitChar k).toNat = 48 + k := by decide

theorem parse_digits (c0 c1 c2 c3 c4 c5 c6 c7 c8 c9 c10 c11 : Char)
    (k0 k1 k2 k3 k4 k5 k6 k7 k8 k9 k10 k11 : Nat)
    (h0 : c0.toNat = 48 + k0) (h1 : c1.toNat = 48 + k1) (h2 : c2.toNat = 48 + k2)
    (h3 : c3.toNat = 48 + k3) (h4 : c4.toNat = 48 + k4) (h5 : c5.toNat = 48 + k5)
    (h6 : c6.toNat = 48 + k6) (h7 : c7.toNat = 48 + k7) (h8 : c8.toNat = 48 + k8)
    (h9 : c9.toNat = 48 + k9) (h10 : c10.toNat = 48 + k10) (h11 : c11.toNat = 48 + k11)
    (l0 : k0 < 10) (l1 : k1 < 10) (l2 : k2 < 10) (l3 : k3 < 10) (l4 : k4 < 10) (l5 : k5 < 10)
    (l6 : k6 < 10) (l7 : k7 < 10) (l8 : k8 < 10) (l9 : k9 < 10) (l10 : k10 < 10)
    (l11 : k11 < 10)
    (hmonth : 1 ≤ k4 * 10 + k5 ∧ k4 * 10 + k5 ≤ 12)
    (hday : 1 ≤ k6 * 10 + k7
      ∧ k6 * 10 + k7 ≤ Time.daysIn (k4 * 10 + k5) (k0 * 1000 + k1 * 100 + k2 * 10 + k3))
    (hhour : k8 * 10 + k9 < 24) (hmin : k10 * 10 + k11 < 60) :
    Time.parse [c0, c1, c2, c3, '-', c4, c5, '-', c6, c7, ' ', c8, c9, ':', c10, c11]
      = some ⟨k0 * 1000 + k1 * 100 + k2 * 10 + k3, k4 * 10 + k5, k6 * 10 + k7, k8 * 10 + k9,
          k10 * 10 + k11⟩ := by
  have hsp : (c8 == ' ') = false := by
    rw [beq_eq_false_iff_ne]
    intro e
    rw [e] at h8
    have : ' '.toNat = 32 := rfl
    omega
  have e1 : Time.atoi4 ([c0, c1, c2, c3, '-', c4, c5, '-', c6, c7, ' ', c8, c9, ':', c10, c11].take 4)
      = some (k0 * 1000 + k1 * 100 + k2 * 10 + k3) := by
    simp [Time.atoi4, Time.isDigit, Time.digitVal, h0, h1, h2, h3]
    omega
  have e2 : Time.getnum [c4, c5, '-', c6, c7, ' ', c8, c9, ':', c10, c11] true
      = some (k4 * 10 + k5, ['-', c6, c7, ' ', c8, c9, ':', c10, c11]) := by
    simp [Time.getnum, Time.isDigit, Time.digitVal, h4, h5]
    omega
  have e3 : Time.getnum [c6, c7, ' ', c8, c9, ':', c10, c11] true
      = some (k6 * 10 + k7, [' ', c8, c9, ':', c10, c11]) := by
    simp [Time.getnum, Time.isDigit, Time.digitVal, h6, h7]
    omega
  have e4 : Time.skip [' ', c8, c9, ':', c10, c11] ' ' = some [c8, c9, ':', c10, c11] := by
    simp [Time.skip, List.dropWhile, hsp]
  have e5 : Time.getnum [c8, c9, ':', c10, c11] false
      = some (k8 * 10 + k9, [':', c10, c11]) := by
    simp [Time.getnum, Time.isDigit, Time.digitVal, h8, h9]
    omega
  have e6 : Time.getnum [c10, c11] true = some (k10 * 10 + k11, []) := by
    simp [Time.getnum, Time.isDigit, Time.digitVal, h10, h11]
    omega
  have e7 : Time.skip ['-', c4, c5, '-', c6, c7, ' ', c8, c9, ':', c10, c11] '-'
      = some [c4, c5, '-', c6, c7, ' ', c8, c9, ':', c10, c11] := by
    simp [Time.skip]
  have e8 : Time.skip ['-', c6, c7, ' ', c8, c9, ':', c10, c11] '-'
      = some [c6, c7, ' ', c8, c9, ':', c10, c11] := by
    simp [Time.skip]
  have e9 : Time.skip [':', c10, c11] ':' = some [c10, c11] := by
    simp [Time.skip]
  have e0 : Time.isDigit [c0, c1, c2, c3, '-', c4, c5, '-', c6, c7, ' ', c8, c9, ':', c10, c11] 0
      = true := by
    simp [Time.isDigit, h0]
    omega
  unfold Time.parse
  rw [e0, e1]
  simp only [List.drop_succ_cons, List.drop_zero, e7, e2, e8, e3, e4, e5, e9, e6]
  simp
  omega

theorem parse_wellformed (year month day hour minute : Nat) (hy : year < 10000)
    (hm : 1 ≤ month ∧ month ≤ 12) (hd : 1 ≤ day ∧ day ≤ Time.daysIn month year)
    (hh : hour < 24) (hmin : minute < 60) :
    Time.Parse (dateText year month day ++ " " ++ timeText hour minute)
      = (⟨year, month, day, hour, minute⟩, true) := by
  have hdle : day ≤ 31 := by
    have : Time.daysIn month year ≤ 31 := by
      unfold Time.daysIn
      split_ifs <;> omega
    omega
  have e1 : year / 1000 * 1000 + year / 100 % 10 * 100 + year / 10 % 10 * 10 + year % 10 = year := by
    omega
  have e2 : month / 10 * 10 + month % 10 = month := by omega
  have e3 : day / 10 * 10 + day % 10 = day := by omega
  have e4 : hour / 10 * 10 + hour % 10 = hour := by omega
  have e5 : minute / 10 * 10 + minute % 10 = minute := by omega
  have hp := parse_digits (digitChar (year / 1000)) (digitChar (year / 100 % 10))
    (digitChar (year / 10 % 10)) (digitChar (year % 10)) (digitChar (month / 10))
    (digitChar (month % 10)) (digitChar (day / 10)) (digitChar (day % 10))
    (digitChar (hour / 10)) (digitChar (hour % 10)) (digitChar (minute / 10))
    (digitChar (minute % 10))
    (year / 1000) (year / 100 % 10) (year / 10 % 10) (year % 10) (month / 10) (month % 10)
    (day / 10) (day % 10) (hour / 10) (hour % 10) (minute / 10) (minute % 10)
    (digitChar_toNat _ (by omega)) (digitChar_toNat _ (by omega)) (digitChar_toNat _ (by omega))
    (digitChar_toNat _ (by omega)) (digitChar_toNat _ (by omega)) (digitChar_toNat _ (by omega))
    (digitChar_toNat _ (by omega)) (digitChar_toNat _ (by omega)) (digitChar_toNat _ (by omega))
    (digitChar_toNat _ (by omega)) (digitChar_toNat _ (by omega)) (digitChar_toNat _ (by omega))
    (by omega) (by omega) (by omega) (by omega) (by omega) (by omega)
    (by omega) (by omega) (by omega) (by omega) (by omega) (by omega)
    (by rw [e2]; exact hm) (by rw [e1, e2, e3]; exact hd) (by rw [e4]; exact hh)
    (by rw [e5]; exact hmin)
  rw [e1, e2, e3, e4, e5] at hp
  have hdata : (dateText year month day ++ " " ++ timeText hour minute).data
      = [digitChar (year / 1000), digitChar (year / 100 % 10), digitChar (year / 10 % 10),
          digitChar (year % 10), '-', digitChar (month / 10), digitChar (month % 10), '-',
          digitChar (day / 10), digitChar (day % 10), ' ', digitChar (hour / 10),
          digitChar (hour % 10), ':', digitChar (minute / 10), digitChar (minute % 10)] := by
    simp [dateText, timeText, twoDigits, String.data_append]
  unfold Time.Parse
  rw [hdata, hp]

/-- C16: for every receipt whose purchase date is the text `YYYY-MM-DD` of a calendar date
and whose purchase time is the text `HH:MM` of a time of day (hour 00 to 23, minute 00 to
59), the time `pointGenerator` reads has that day of the month, and the odd-day rule
contributes 6 to the score when the day is odd and 0 when it is even. -/
theorem odd_day_rule (R : Runtime) (receipt : Receipt) (year month day hour minute : Nat)
    (hy : year < 10000) (hm : 1 ≤ month ∧ month ≤ 12)
    (hd : 1 ≤ day ∧ day ≤ Time.daysIn month year) (hh : hour < 24) (hmin : minute < 60)
    (hdate : receipt.PurchaseDate = dateText year month day)
    (htime : receipt.PurchaseTime = timeText hour minute) :
    purchaseDateTime receipt = ⟨year, month, day, hour, minute⟩
      ∧ (day % 2 = 1 → oddDayPoints (purchaseDateTime receipt) = 6)
      ∧ (day % 2 = 0 → oddDayPoints (purchaseDateTime receipt) = 0)
      ∧ pointGenerator R receipt
          = wrap64 (retailerPoints R receipt.Retailer + descriptionPoints R receipt.Items
              + roundDollarPoints receipt.Total + quarterPoints receipt.Total
              + pairPoints receipt.Items + (if day % 2 = 1 then 6 else 0)
              + afternoonPoints (purchaseDateTime receipt)) := by
  have ht : purchaseDateTime receipt = ⟨year, month, day, hour, minute⟩ := by
    unfold purchaseDateTime
    rw [hdate, htime, parse_wellformed year month day hour minute hy hm hd hh hmin]
  have hodd : oddDayPoints (purchaseDateTime receipt) = if day % 2 = 1 then 6 else 0 := by
    rw [ht]
    unfold oddDayPoints Time.Day
    simp only
    split_ifs <;> omega
  refine ⟨ht, ?_, ?_, ?_⟩
  · intro h; rw [hodd, if_pos h]
  · intro h; rw [hodd, if_neg (by omega)]
  · rw [pointGenerator_eq_sum, hodd]

set_option maxRecDepth 1000000 in
/-- Witness of C16: the reference receipt, bought on 2022-01-01 at 13:01 (odd day, 6 points),
and the same receipt bought on 2022-01-02 (even day, no points). -/
theorem odd_day_rule_witness :
    (targetReceipt.PurchaseDate = dateText 2022 1 1 ∧ targetReceipt.PurchaseTime = timeText 13 1
        ∧ oddDayPoints (purchaseDateTime targetReceipt) = 6
        ∧ pointGenerator sampleRuntime targetReceipt = 28)
      ∧ (oddDayPoints (purchaseDateTime { targetReceipt with PurchaseDate := "2022-01-02" }) = 0
        ∧ pointGenerator sampleRuntime { targetReceipt with PurchaseDate := "2022-01-02" }
          = 22) :=
  ⟨⟨by rfl, by rfl,
      (odd_day_rule sampleRuntime targetReceipt 2022 1 1 13 1 (by decide) (by decide)
        (by decide) (by decide) (by decide) (by rfl) (by rfl)).2.1 (by decide),
      by rfl⟩,
    ⟨(odd_day_rule sampleRuntime { targetReceipt with PurchaseDate := "2022-01-02" } 2022 1 2 13 1
        (by decide) (by decide) (by decide) (by decide) (by decide) (by rfl) (by rfl)).2.2.1
        (by decide),
      by rfl⟩⟩

/-! ## C17: every duplicate-detection entry has its record -/

theorem keysPoint_empty : KeysPointToRecords Store.empty := by
  intro k v h
  simp [Store.empty] at h

theorem keysPoint_set_record (db : Store) (u : UUID) (receipt : Receipt)
    (hid : receipt.Id = u.String) (h : KeysPointToRecords db) :
    KeysPointToRecords (db.set (recordKey u.String) (.record receipt)) := by
  intro k v hk
  by_cases hkey : k = recordKey u.String
  · simp only [Store.set, if_pos hkey, Option.some.injEq] at hk
    subst hk
    rw [hkey]
    exact recordKey_no_plus u
  · simp only [Store.set, if_neg hkey] at hk
    have := h k v hk
    cases v with
    | record r => exact this
    | ident w =>
      obtain ⟨hp, r, hr, hrid⟩ := this
      refine ⟨hp, ?_⟩
      by_cases hw : recordKey w.String = recordKey u.String
      · refine ⟨receipt, by simp [Store.set, hw], ?_⟩
        rw [hid, recordKey_inj _ _ hw]
      · exact ⟨r, by simp [Store.set, hw, hr], hrid⟩

theorem keysPoint_set_key (db : Store) (u : UUID) (receipt rec : Receipt)
    (hrec : db (recordKey u.String) = some (.record rec)) (hid : rec.Id = u.String)
    (h : KeysPointToRecords db) :
    KeysPointToRecords (db.set (uniqueKey receipt) (.ident u)) := by
  have hne : ∀ w : UUID, recordKey w.String ≠ uniqueKey receipt :=
    fun w => Ne.symm (uniqueKey_ne_recordKey receipt w)
  intro k v hk
  by_cases hkey : k = uniqueKey receipt
  · simp only [Store.set, if_pos hkey, Option.some.injEq] at hk
    subst hk
    rw [hkey]
    exact ⟨uniqueKey_has_plus receipt, rec, by simp [Store.set, hne u, hrec], hid⟩
  · simp only [Store.set, if_neg hkey] at hk
    have := h k v hk
    cases v with
    | record r => exact this
    | ident w =>
      obtain ⟨hp, r, hr, hrid⟩ := this
      exact ⟨hp, r, by simp [Store.set, hne w, hr], hrid⟩

theorem keysPoint_step (R : Runtime) (env : Env) (db : Store) (receipt : Receipt)
    (h : KeysPointToRecords db) : KeysPointToRecords (CreateReceipt R env db receipt).1 := by
  have hrecord := keysPoint_set_record db (uuidLoop env db 0 3 (UUID.zero, true)).1
    (storedReceipt R receipt (uuidLoop env db 0 3 (UUID.zero, true)).1) rfl h
  rcases createReceipt_cases R env db receipt with
    ⟨_, e⟩ | ⟨_, _, e⟩ | ⟨_, _, _, e⟩ | ⟨_, _, _, e⟩ | ⟨_, _, _, _, e⟩ | ⟨_, _, _, _, e⟩
  · rw [e]; exact h
  · rw [e]; exact h
  · rw [e]; exact h
  · rw [e]; exact h
  · rw [e]; exact hrecord
  · rw [e]
    exact keysPoint_set_key _ _ receipt
      (storedReceipt R receipt (uuidLoop env db 0 3 (UUID.zero, true)).1)
      (by simp [Store.set]) rfl hrecord

theorem keysPoint_run (R : Runtime) (calls : List (Env × Receipt)) :
    ∀ db : Store, KeysPointToRecords db → KeysPointToRecords (runCreates R db calls) := by
  induction calls with
  | nil => intro db h; exact h
  | cons c cs ih => intro db h; exact ih _ (keysPoint_step R c.1 db c.2 h)

/-- C17: in every database reached from the empty one by calls of `CreateReceipt`, whatever
the generator and the writes do in each call, every entry that holds an identifier (these are
the entries under keys that contain a `+`, the duplicate-detection keys) names an identifier
whose record is present under "receipt:" + identifier; a call whose record write does not
commit writes nothing, and a call writes the duplicate-detection entry only on top of the
record it has just written. -/
theorem key_entries_have_records (R : Runtime) (calls : List (Env × Receipt)) :
    (∀ (k : String) (u : UUID), runCreates R Store.empty calls k = some (.ident u) →
        ∃ receipt, runCreates R Store.empty calls (recordKey u.String) = some (.record receipt))
      ∧ (∀ (k : String) (v : Value), '+' ∈ k.data → runCreates R Store.empty calls k = some v →
          ∃ u, v = .ident u
            ∧ ∃ receipt,
              runCreates R Store.empty calls (recordKey u.String) = some (.record receipt))
      ∧ (∀ (env : Env) (db : Store) (receipt : Receipt), env.recordWrite = false →
          (CreateReceipt R env db receipt).1 = db)
      ∧ (∀ (env : Env) (db : Store) (receipt : Receipt) (u : UUID),
          db (uniqueKey receipt) = none →
          (CreateReceipt R env db receipt).1 (uniqueKey receipt) = some (.ident u) →
          env.recordWrite = true
            ∧ (CreateReceipt R env db receipt).1 (recordKey u.String)
              = some (.record (storedReceipt R receipt u))) := by
  have hinv := keysPoint_run R calls Store.empty keysPoint_empty
  refine ⟨?_, ?_, ?_, ?_⟩
  · intro k u hk
    obtain ⟨_, r, hr, _⟩ := hinv k _ hk
    exact ⟨r, hr⟩
  · intro k v hp hk
    have := hinv k v hk
    cases v with
    | record r => exact absurd hp this
    | ident u =>
      obtain ⟨_, r, hr, _⟩ := this
      exact ⟨u, rfl, r, hr⟩
  · intro env db receipt hw
    rcases createReceipt_cases R env db receipt with
      ⟨_, e⟩ | ⟨_, _, e⟩ | ⟨_, _, _, e⟩ | ⟨_, _, _, e⟩ | ⟨_, _, h, _, e⟩ | ⟨_, _, h, _, e⟩
    · rw [e]
    · rw [e]
    · rw [e]
    · rw [e]
    · rw [hw] at h; exact absurd h (by decide)
    · rw [hw] at h; exact absurd h (by decide)
  · intro env db receipt u hnew hk
    have hne := uniqueKey_ne_recordKey receipt
    rcases createReceipt_cases R env db receipt with
      ⟨_, e⟩ | ⟨_, _, e⟩ | ⟨_, _, _, e⟩ | ⟨_, _, _, e⟩ | ⟨_, _, _, _, e⟩ | ⟨_, _, h4, _, e⟩
    · rw [e] at hk; simp only [hnew] at hk; exact absurd hk (by simp)
    · rw [e] at hk; simp only [hnew] at hk; exact absurd hk (by simp)
    · rw [e] at hk; simp only [hnew] at hk; exact absurd hk (by simp)
    · rw [e] at hk; simp only [hnew] at hk; exact absurd hk (by simp)
    · rw [e] at hk
      simp only [Store.set, if_neg (hne _), hnew] at hk
      exact absurd hk (by simp)
    · rw [e] at hk ⊢
      simp only [Store.set, if_true, Option.some.injEq, Value.ident.injEq] at hk
      subst hk
      refine ⟨h4, ?_⟩
      simp only [Store.set, if_neg (Ne.symm (hne _)), if_true]

/-! ## C18: the two kinds of keys -/

theorem hexDigit_isHex : ∀ n, n < 16 → isHexOrHyphen (UUID.hexDigit n) = true := by decide

theorem uuid_string_hex (u : UUID) : ∀ c ∈ u.String.data, isHexOrHyphen c = true := by
  have hb : ∀ (is : List Nat) (c : Char), c ∈ UUID.hexBytes u is → isHexOrHyphen c = true := by
    intro is c hc
    simp only [UUID.hexBytes, List.mem_flatMap, UUID.hexByte, List.mem_cons, List.mem_singleton,
      List.not_mem_nil, or_false] at hc
    obtain ⟨i, _, h | h⟩ := hc
    · rw [h]; exact hexDigit_isHex _ (Nat.div_lt_of_lt_mul (Nat.mod_lt _ (by norm_num)))
    · rw [h]; exact hexDigit_isHex _ (Nat.mod_lt _ (by norm_num))
  intro c hc
  simp only [UUID.String, List.mem_append, List.mem_singleton] at hc
  rcases hc with ((((((((h | h) | h) | h) | h) | h) | h) | h) | h)
  all_goals first | exact hb _ c h | (rw [h]; rfl)

/-- C18: for every receipt and every identifier text made of hexadecimal digits and hyphens
only, the duplicate-detection key of the receipt differs from the record key
"receipt:" + identifier, whatever the retailer is, so a write under the duplicate-detection
key leaves the entry under the record key as it was; and every text `UUID.String` produces is
of that form. -/
theorem key_never_record_key (receipt : Receipt) (id : String)
    (hid : ∀ c ∈ id.data, isHexOrHyphen c = true) :
    uniqueKey receipt ≠ recordKey id
      ∧ (∀ (db : Store) (v : Value),
          (db.set (uniqueKey receipt) v) (recordKey id) = db (recordKey id))
      ∧ (∀ u : UUID, ∀ c ∈ u.String.data, isHexOrHyphen c = true) := by
  have hne : uniqueKey receipt ≠ recordKey id := by
    intro h
    have hplus := uniqueKey_has_plus receipt
    rw [h] at hplus
    simp only [recordKey, String.data_append, List.mem_append] at hplus
    rcases hplus with hp | hp
    · exact absurd hp (by decide)
    · exact absurd (hid _ hp) (by decide)
  refine ⟨hne, ?_, uuid_string_hex⟩
  intro db v
  simp only [Store.set, if_neg (Ne.symm hne)]

set_option maxRecDepth 1000000 in
/-- Witness of C18: a receipt whose retailer is "receipt:A" and the identifier
"00000000-0000-0000-0000-000000000001". -/
theorem key_never_record_key_witness :
    (∀ c ∈ "00000000-0000-0000-0000-000000000001".data, isHexOrHyphen c = true)
      ∧ uniqueKey keyLikeReceipt = "receipt:A+2022-01-01+13:01+1.000000"
      ∧ uniqueKey keyLikeReceipt ≠ recordKey "00000000-0000-0000-0000-000000000001" :=
  ⟨by decide, by rfl,
    (key_never_record_key keyLikeReceipt "00000000-0000-0000-0000-000000000001"
      (by decide)).1⟩

/-! ## C19: the sign of the score -/

theorem descriptionPoints_eq_ceilings (R : Runtime) (items : List ReceiptItem)
    (hprice : ∀ item ∈ items.filter descriptionCounts, item.Price.isFinite = true
      ∧ 0 ≤ item.Price.toRat ∧ ⌈(mul item.Price point2).toRat⌉ < 9223372036854775808) :
    descriptionPoints R items
      = ((items.filter descriptionCounts).map
          (fun item => ⌈(mul item.Price point2).toRat⌉)).sum := by
  unfold descriptionPoints
  congr 1
  apply List.map_congr_left
  intro item hi
  obtain ⟨h1, h2, h3⟩ := hprice item hi
  exact priceBonus_eq R item h1 h2 h3

theorem ceiling_nonneg (p : Float64) (hf : p.isFinite = true) (h0 : 0 ≤ p.toRat) :
    0 ≤ ⌈(mul p point2).toRat⌉ :=
  Int.ceil_nonneg (toRat_nonneg _ (mul_point2_sign p hf h0))

theorem retailerPoints_nonneg (R : Runtime) (retailer : String) : 0 ≤ retailerPoints R retailer := by
  unfold retailerPoints
  exact Int.natCast_nonneg _

theorem fixed_rules_nonneg (receipt : Receipt) :
    0 ≤ roundDollarPoints receipt.Total ∧ 0 ≤ quarterPoints receipt.Total
      ∧ 0 ≤ pairPoints receipt.Items ∧ 0 ≤ oddDayPoints (purchaseDateTime receipt)
      ∧ 0 ≤ afternoonPoints (purchaseDateTime receipt) := by
  unfold roundDollarPoints quarterPoints pairPoints oddDayPoints afternoonPoints
  refine ⟨?_, ?_, ?_, ?_, ?_⟩
  · split_ifs <;> norm_num
  · split_ifs <;> norm_num
  · have : (0 : Int) ≤ (receipt.Items.length : Int) := Int.natCast_nonneg _
    omega
  · split_ifs <;> norm_num
  · split_ifs <;> norm_num

theorem toRat_neg_of_sign (x : Float64) (hf : x.isFinite = true) (hs : x.sign = true)
    (hm : x.mant ≠ 0) : x.toRat < 0 := by
  unfold toRat
  rw [if_pos hf, if_pos hs]
  have h2 : (0 : ℚ) < (2 : ℚ) ^ x.exp2 := zpow_pos (by norm_num) _
  have h3 : (0 : ℚ) < (x.mant : ℚ) := by exact_mod_cast Nat.pos_of_ne_zero hm
  have := mul_pos h3 h2
  linarith

set_option maxRecDepth 1000000 in
/-- C19, counterexample: the reference receipt with three items of price
20000000000000000000 each has finite non-negative prices, each bonus is
4000000000000000000, and on every runtime the score is negative: the sum exceeds the range of
`int` and wraps around. -/
theorem nonneg_prices_negative_score :
    bigItemsReceipt.Items
        = [⟨"abc", ofDecimal 20000000000000000000 0⟩, ⟨"def", ofDecimal 20000000000000000000 0⟩,
            ⟨"ghi", ofDecimal 20000000000000000000 0⟩]
      ∧ (ofDecimal 20000000000000000000 0).isFinite = true
      ∧ 0 ≤ (ofDecimal 20000000000000000000 0).toRat
      ∧ ⌈(mul (ofDecimal 20000000000000000000 0) point2).toRat⌉ = 4000000000000000000
      ∧ (¬ ∃ R : Runtime, 0 ≤ pointGenerator R bigItemsReceipt)
      ∧ pointGenerator sampleRuntime bigItemsReceipt = -6446744073709551599 := by
  have hf : (ofDecimal 20000000000000000000 0).isFinite = true := by rfl
  have hs : (ofDecimal 20000000000000000000 0).sign = false := by rfl
  have h0 := toRat_nonneg (ofDecimal 20000000000000000000 0) (Or.inl hs)
  have hc := (Ceil_spec _ (mul_point2_isFinite _ hf) (mul_point2_sign _ hf h0)).2
  have ht : (Ceil (mul (ofDecimal 20000000000000000000 0) point2)).trunc
      = 4000000000000000000 := by rfl
  refine ⟨by rfl, hf, h0, by rw [← hc, ht], ?_, by rfl⟩
  rintro ⟨R, hR⟩
  have hv : pointGenerator R bigItemsReceipt = -6446744073709551599 := by rfl
  rw [hv] at hR
  omega

set_option maxRecDepth 1000000 in
/-- C19, amended: for every receipt all of whose item prices are finite and non-negative and
whose rule contributions (with the exact ceilings of price * 0.2) add up to less than 2 ^ 63,
the score is that sum, hence non-negative; and a receipt with a negative item price has a
negative score. -/
theorem score_sign (R : Runtime) (receipt : Receipt)
    (hprice : ∀ item ∈ receipt.Items, item.Price.isFinite = true ∧ 0 ≤ item.Price.toRat)
    (hsum : retailerPoints R receipt.Retailer
        + ((receipt.Items.filter descriptionCounts).map
            (fun item => ⌈(mul item.Price point2).toRat⌉)).sum
        + roundDollarPoints receipt.Total + quarterPoints receipt.Total
        + pairPoints receipt.Items + oddDayPoints (purchaseDateTime receipt)
        + afternoonPoints (purchaseDateTime receipt) < 9223372036854775808) :
    0 ≤ pointGenerator R receipt
      ∧ pointGenerator R receipt
        = retailerPoints R receipt.Retailer
          + ((receipt.Items.filter descriptionCounts).map
              (fun item => ⌈(mul item.Price point2).toRat⌉)).sum
          + roundDollarPoints receipt.Total + quarterPoints receipt.Total
          + pairPoints receipt.Items + oddDayPoints (purchaseDateTime receipt)
          + afternoonPoints (purchaseDateTime receipt)
      ∧ ∃ r : Receipt, (∃ item ∈ r.Items, item.Price.toRat < 0) ∧ pointGenerator R r < 0 := by
  have hr := retailerPoints_nonneg R receipt.Retailer
  obtain ⟨f1, f2, f3, f4, f5⟩ := fixed_rules_nonneg receipt
  have hnn : ∀ x ∈ (receipt.Items.filter descriptionCounts).map
      (fun item => ⌈(mul item.Price point2).toRat⌉), 0 ≤ x := by
    intro x hx
    obtain ⟨item, hi, rfl⟩ := List.mem_map.mp hx
    obtain ⟨h1, h2⟩ := hprice item (List.mem_filter.mp hi).1
    exact ceiling_nonneg _ h1 h2
  have hsum0 := List.sum_nonneg hnn
  have hle : ∀ item ∈ receipt.Items.filter descriptionCounts,
      ⌈(mul item.Price point2).toRat⌉ < 9223372036854775808 := by
    intro item hi
    have := List.single_le_sum hnn _ (List.mem_map_of_mem _ hi)
    omega
  have hd := descriptionPoints_eq_ceilings R receipt.Items (fun item hi =>
    ⟨(hprice item (List.mem_filter.mp hi).1).1, (hprice item (List.mem_filter.mp hi).1).2,
      hle item hi⟩)
  have hpg : pointGenerator R receipt
      = retailerPoints R receipt.Retailer
        + ((receipt.Items.filter descriptionCounts).map
            (fun item => ⌈(mul item.Price point2).toRat⌉)).sum
        + roundDollarPoints receipt.Total + quarterPoints receipt.Total
        + pairPoints receipt.Items + oddDayPoints (purchaseDateTime receipt)
        + afternoonPoints (purchaseDateTime receipt) := by
    rw [pointGenerator_eq_sum, hd]
    apply wrap64_of_range
    · omega
    · exact hsum
  refine ⟨by rw [hpg]; omega, hpg, negativePriceReceipt, ?_, ?_⟩
  · have hneg : ((ofDecimal 1000 2).neg).toRat < 0 :=
      toRat_neg_of_sign _ (by rfl) (by rfl) (by decide!)
    exact ⟨⟨"abc", (ofDecimal 1000 2).neg⟩, by simp [negativePriceReceipt], hneg⟩
  · have hv : pointGenerator R negativePriceReceipt = -1 := by rfl
    rw [hv]; norm_num

set_option maxRecDepth 1000000 in
/-- Witness of C19 (amended): the reference receipt, whose contributions add up to 28; and
the receipt of retailer "A" with one item of price -10.00, whose score is -1. -/
theorem score_sign_witness :
    (∀ item ∈ targetReceipt.Items, item.Price.isFinite = true ∧ 0 ≤ item.Price.toRat)
      ∧ 0 ≤ pointGenerator sampleRuntime targetReceipt
      ∧ pointGenerator sampleRuntime negativePriceReceipt = -1 :=
  have hp : ∀ item ∈ targetReceipt.Items, item.Price.isFinite = true ∧ 0 ≤ item.Price.toRat
      ∧ ⌈(mul item.Price point2).toRat⌉ < 9223372036854775808 := by
    intro item hi
    simp only [targetReceipt, List.mem_cons, List.mem_singleton, List.not_mem_nil, or_false] at hi
    rcases hi with rfl | rfl | rfl | rfl | rfl <;>
      exact price_in_range _ (by rfl) (by rfl) (by decide!)
  have hd := descriptionPoints_eq_ceilings sampleRuntime targetReceipt.Items
    (fun item hi => hp item (List.mem_filter.mp hi).1)
  ⟨fun item hi => ⟨(hp item hi).1, (hp item hi).2.1⟩,
    (score_sign sampleRuntime targetReceipt (fun item hi => ⟨(hp item hi).1, (hp item hi).2.1⟩)
      (by rw [← hd]; decide!)).1,
    by rfl⟩

end ReceiptProcessor
